import Mathlib

/-!
Verification development for the Info_AI_Studio extraction pipeline.

The Python sources are shallowly embedded as executable Lean functions over
`List Char` (Python strings), `Nat` (non-negative integers / instants as
"seconds before now") and explicit oracle records (network / provider
collaborators).  Every definition mirrors a concrete function of the
repository; the file/database/logging side effects of the originals are not
modelled (they carry no decision logic), and each definition's doc comment
names the source location it embeds.
-/

namespace InfoAI

/-! ## Python-string primitives (over `List Char`) -/

/-- ASCII whitespace class used by `str.strip()` and the regex class `\s`
(space, tab, LF, VT, FF, CR).  The originals also accept rare Unicode
whitespace; all texts handled in this development are ASCII-spaced. -/
def wsChar (c : Char) : Bool :=
  c.toNat = 32 || (9 ≤ c.toNat && c.toNat ≤ 13)

/-- ASCII decimal digit, the regex class `\d` (Python `re` on `str` also
accepts Unicode digits, which never occur in the modelled inputs). -/
def digitChar (c : Char) : Bool :=
  48 ≤ c.toNat && c.toNat ≤ 57

/-- ASCII lower-casing of one character (`str.lower`); characters outside
A–Z, in particular the accented letters of the Portuguese texts, are kept
(they are already lower case wherever the code lower-cases). -/
def lowChar (c : Char) : Char :=
  if 65 ≤ c.toNat && c.toNat ≤ 90 then Char.ofNat (c.toNat + 32) else c

/-- ASCII upper-casing of one character (`str.upper`). -/
def upChar (c : Char) : Char :=
  if 97 ≤ c.toNat && c.toNat ≤ 122 then Char.ofNat (c.toNat - 32) else c

/-- `str.lower` over a whole string. -/
def lowStr (s : List Char) : List Char :=
  s.map lowChar

/-- `str.upper` over a whole string. -/
def upStr (s : List Char) : List Char :=
  s.map upChar

/-- Left part of `str.strip()`. -/
def trimL (s : List Char) : List Char :=
  s.dropWhile wsChar

/-- Right part of `str.strip()`. -/
def trimR (s : List Char) : List Char :=
  (s.reverse.dropWhile wsChar).reverse

/-- Python `str.strip()` (no argument): drop whitespace on both ends. -/
def trimBoth (s : List Char) : List Char :=
  trimL (trimR s)

/-- `p` is a prefix of `s` (Boolean, by character equality). -/
def startsWithL : List Char → List Char → Bool
  | [], _ => true
  | _ :: _, [] => false
  | p :: ps, c :: cs => p = c && startsWithL ps cs

/-- Python substring containment `p in s`. -/
def hasSub (p : List Char) : List Char → Bool
  | [] => startsWithL p []
  | c :: cs => startsWithL p (c :: cs) || hasSub p cs

/-- One fuelled step list for Python `str.replace(pat, repl)` (all
non-overlapping occurrences, left to right).  The fuel is only a
termination device; `replAll` supplies `s.length`, which is always
sufficient because every step consumes at least one character. -/
def replAllF : Nat → List Char → List Char → List Char → List Char
  | 0, s, _, _ => s
  | _ + 1, [], _, _ => []
  | fuel + 1, c :: cs, pat, repl =>
    if startsWithL pat (c :: cs) then
      repl ++ replAllF fuel (List.drop pat.length (c :: cs)) pat repl
    else
      c :: replAllF fuel cs pat repl

/-- Python `str.replace(pat, repl)` for a non-empty `pat` (all patterns used
by the embedded code are non-empty literals). -/
def replAll (s pat repl : List Char) : List Char :=
  if pat = [] then s else replAllF s.length s pat repl

/-- Decimal value of a digit run, as `int()` applied to the matched group. -/
def digitsVal (s : List Char) : Nat :=
  s.foldl (fun acc c => acc * 10 + (c.toNat - 48)) 0

/-! ## RelativeTimeParser
Embedding of `YouTubeExtractor._parse_relative_time`
(`src/app/domain/youtube/extractor_plus.py`, lines 81-126).  The Python
function returns `now - n*unit` as a `datetime`; since `now` is sampled once
inside the function, the embedding returns the subtracted amount in seconds
("seconds before now"), `none` standing for the Python `None`. -/

/-- Live/upcoming markers checked first (line 85). -/
def relMarkers : List (List Char) :=
  [ "live now".toList, "ao vivo".toList, "transmitindo agora".toList,
    "upcoming".toList, "programado".toList ]

/-- Suffix words stripped before unit matching (lines 88-95). -/
def relSubs : List (List Char) :=
  [ "atrás".toList, "ago".toList, "há".toList, "streamed".toList,
    "transmitido".toList ]

/-- Apply the five `str.replace(..., "")` calls of lines 88-94 in order. -/
def applySubs (t : List Char) : List Char :=
  relSubs.foldl (fun acc pat => replAll acc pat []) t

/-- The ordered pattern table of lines 96-109, as lists of literal
alternatives together with the subtracted duration in seconds
(minutes, hours, days, weeks, months = 30 days, years = 365 days).
Each regex `(\d+)\s*LIT` is represented by its literal `LIT`; the trailing
`s?` appended at line 111 never affects whether a match exists. -/
def relUnits : List (List (List Char) × Nat) :=
  [ ([ "min".toList ], 60),
    ([ "minute".toList ], 60),
    ([ "hora".toList ], 3600),
    ([ "hour".toList ], 3600),
    ([ "dia".toList ], 86400),
    ([ "day".toList ], 86400),
    ([ "semana".toList ], 604800),
    ([ "week".toList ], 604800),
    ([ "mes".toList, "mês".toList ], 2592000),
    ([ "month".toList ], 2592000),
    ([ "ano".toList ], 31536000),
    ([ "year".toList ], 31536000) ]

/-- `re.search` for a pattern of shape `(\d+)\s*LIT`: scan left to right for
the first position where a maximal digit run, optional whitespace and one of
the literal alternatives occur; return the run's decimal value (the captured
group).  The literals all begin with a letter, so the greedy `\d+`/`\s*`
never need to backtrack. -/
def searchNum (alts : List (List Char)) : List Char → Option Nat
  | [] => none
  | c :: cs =>
    if digitChar c then
      let rest := (c :: cs).dropWhile digitChar
      let rest2 := rest.dropWhile wsChar
      if alts.any (fun a => startsWithL a rest2) then
        some (digitsVal ((c :: cs).takeWhile digitChar))
      else
        searchNum alts cs
    else
      searchNum alts cs

/-- The `for pat, unit in pats` loop of lines 110-125: first pattern that
matches anywhere wins, and the captured count is converted to seconds. -/
def searchUnits : List (List (List Char) × Nat) → List Char → Option Nat
  | [], _ => none
  | (alts, secs) :: rest, t =>
    match searchNum alts t with
    | some n => some (n * secs)
    | none => searchUnits rest t

/-- Normalised text handed to the pattern loop: strip + lower (line 84),
suffix-word removal and second strip (lines 88-95). -/
def relProcessed (text : List Char) : List Char :=
  trimBoth (applySubs (lowStr (trimBoth text)))

/-- `YouTubeExtractor._parse_relative_time` (lines 81-126): `none` for empty
text, any live/upcoming marker, or no pattern match; otherwise the matched
amount of seconds before "now". -/
def parseRelTime (text : List Char) : Option Nat :=
  if text = [] then none
  else
    let t := lowStr (trimBoth text)
    if relMarkers.any (fun k => hasSub k t) then none
    else searchUnits relUnits (trimBoth (applySubs t))

/-! ## ChannelVideoDiscoverer
Embedding of `YouTubeExtractor._extract_from_videos_tab`
(`src/app/domain/youtube/extractor_plus.py`, lines 145-357).  The HTTP fetch
and the `ytInitialData` pattern extraction are I/O; the embedding starts from
the already-parsed tab state: the first page's content items, the optional
initial continuation token, and an oracle list of continuation responses
(one entry per POST to the browse endpoint, `none` for a non-200/exception
response).  The logging counters (`live_count`, `nodate_count`, ...) only
feed log lines and are not modelled. -/

/-- The fields of a `videoRenderer` / `gridVideoRenderer` dict that
`push_video` (lines 205-257) reads.  `title` stands for the extracted
`title.runs[0].text` (empty on a missing path), `publishedTimeText` for
`publishedTimeText.simpleText`, `badgeLabels` for the
`metadataBadgeRenderer.label` texts and `upcomingEvent` for the presence of
`upcomingEventData`. -/
structure VideoRenderer where
  videoId : Option (List Char)
  badgeLabels : List (List Char)
  upcomingEvent : Bool
  title : List Char
  publishedTimeText : List Char
deriving DecidableEq, Repr

/-- One item of a contents / continuationItems list, after the renderer-kind
dispatch done by lines 260-274 and 312-336.  `shelf` covers
`reelShelfRenderer`/`richSectionRenderer`, `video` a
`videoRenderer`/`gridVideoRenderer` (possibly nested in a
`richItemRenderer`), `contToken` a `continuationItemRenderer` whose token
extraction yielded the given optional token, and `other` anything else
(skipped silently). -/
inductive ContentItem where
  | shelf : ContentItem
  | video : VideoRenderer → ContentItem
  | contToken : Option (List Char) → ContentItem
  | other : ContentItem
deriving DecidableEq, Repr

/-- The dict appended to `videos` at lines 244-252.  `published` is the
parsed instant as "seconds before now" (`none` mirrors the empty string the
code stores for an unparsed date). -/
structure VideoOut where
  id : List Char
  title : List Char
  url : List Char
  published : Option Nat
  publishedRel : List Char
deriving DecidableEq, Repr

/-- `is_live` test of line 212: some badge label upper-cases to a string
containing "LIVE". -/
def badgeIsLive (labels : List (List Char)) : Bool :=
  labels.any (fun l => hasSub ( "LIVE".toList) (upStr l))

/-- `push_video` (lines 205-257).  Returns the extended accumulator and the
Python return value (`true` = keep scanning, `false` = stop).  `maxAge` is
`max_age_days`; the age in days is `secondsAgo / 86400`, matching
`(utcnow() - published_dt).days`. -/
def pushVideo (maxAge maxVideos : Option Nat) (vr : VideoRenderer)
    (videos : List VideoOut) : List VideoOut × Bool :=
  match vr.videoId with
  | none => (videos, true)
  | some vid =>
    if badgeIsLive vr.badgeLabels || vr.upcomingEvent then (videos, true)
    else
      let publishedDt := parseRelTime vr.publishedTimeText
      let accept : List VideoOut × Bool :=
        let videos' := videos ++
          [ { id := vid, title := vr.title,
              url := "https://www.youtube.com/watch?v=".toList ++ vid,
              published := publishedDt, publishedRel := vr.publishedTimeText } ]
        match maxVideos with
        | some m => if videos'.length ≥ m then (videos', false) else (videos', true)
        | none => (videos', true)
      match maxAge with
      | some d =>
        match publishedDt with
        | none => (videos, true)
        | some secs => if secs / 86400 > d then (videos, false) else accept
      | none => accept

/-- The first-page `for item in contents` loop (lines 260-274): shelves are
skipped, video renderers go through `push_video`, a `false` return sets
`stop` and breaks.  Continuation items in the first page hit neither key
check and are skipped. -/
def scanFirstPage (maxAge maxVideos : Option Nat) :
    List ContentItem → List VideoOut → List VideoOut × Bool
  | [], videos => (videos, false)
  | ContentItem.shelf :: rest, videos => scanFirstPage maxAge maxVideos rest videos
  | ContentItem.contToken _ :: rest, videos => scanFirstPage maxAge maxVideos rest videos
  | ContentItem.other :: rest, videos => scanFirstPage maxAge maxVideos rest videos
  | ContentItem.video vr :: rest, videos =>
    match pushVideo maxAge maxVideos vr videos with
    | (videos', true) => scanFirstPage maxAge maxVideos rest videos'
    | (videos', false) => (videos', true)

/-- The `for item in items` loop of a continuation response (lines 311-336):
like the first-page loop but a `continuationItemRenderer` records the next
token (then `continue`).  Returns `(videos, stop, token)`. -/
def scanContPage (maxAge maxVideos : Option Nat) :
    List ContentItem → List VideoOut → Option (List Char) →
    List VideoOut × Bool × Option (List Char)
  | [], videos, token => (videos, false, token)
  | ContentItem.contToken t :: rest, videos, _ =>
    scanContPage maxAge maxVideos rest videos t
  | ContentItem.shelf :: rest, videos, token =>
    scanContPage maxAge maxVideos rest videos token
  | ContentItem.other :: rest, videos, token =>
    scanContPage maxAge maxVideos rest videos token
  | ContentItem.video vr :: rest, videos, token =>
    match pushVideo maxAge maxVideos vr videos with
    | (videos', true) => scanContPage maxAge maxVideos rest videos' token
    | (videos', false) => (videos', true, token)

/-- The `while token and (max_videos is None or len(videos) < max_videos)`
pagination loop (lines 292-338).  `net` yields one response per POST:
`none` for a non-200 status or request exception (break, keep what was
collected); an exhausted oracle also breaks.  An empty-string token is falsy
in Python, ending the loop like `None`. -/
def contLoop (maxAge maxVideos : Option Nat) :
    List (Option (List ContentItem)) → Option (List Char) → List VideoOut →
    List VideoOut
  | _, none, videos => videos
  | [], some _, videos => videos
  | resp :: net, some tok, videos =>
    if tok = [] then videos
    else if maxVideos.elim false (fun m => decide (videos.length ≥ m)) then videos
    else
      match resp with
      | none => videos
      | some items =>
        match scanContPage maxAge maxVideos items videos none with
        | (videos', true, _) => videos'
        | (videos', false, token') => contLoop maxAge maxVideos net token' videos'

/-- `YouTubeExtractor._extract_from_videos_tab` from the point where the tab
state is available (lines 259-357): scan the first page, then, if no stop
was hit and the page exposed a continuation token, run the pagination
loop. -/
def extractVideosTab (maxAge maxVideos : Option Nat)
    (contents : List ContentItem) (token0 : Option (List Char))
    (net : List (Option (List ContentItem))) : List VideoOut :=
  match scanFirstPage maxAge maxVideos contents [] with
  | (videos, true) => videos
  | (videos, false) =>
    match token0 with
    | none => videos
    | some tok => contLoop maxAge maxVideos net (some tok) videos

/-! ## JSON values and `json.loads` / `JSONDecoder.raw_decode`
Needed by `llm_client._parse_json_fragment` and the summarisation loop.
The parser follows Python's `json` module grammar; `\uXXXX` escapes are
decoded code point by code point (surrogate pairs are not recombined — no
modelled input contains them) and numbers keep their source literal, since
no embedded code path inspects a numeric value. -/

/-- Opening brace character. -/
def lbraceC : Char := Char.ofNat 123

/-- Closing brace character. -/
def rbraceC : Char := Char.ofNat 125

/-- Apostrophe character (Python `repr` string quote). -/
def aposC : Char := Char.ofNat 39

/-- A parsed JSON value, i.e. the Python object `json.loads` yields:
`null`→`None`, numbers kept as their literal text. -/
inductive JVal where
  | null : JVal
  | bool : Bool → JVal
  | num : List Char → JVal
  | str : List Char → JVal
  | arr : List JVal → JVal
  | obj : List (List Char × JVal) → JVal

/-- JSON structural whitespace (exactly the four characters Python's
decoder skips). -/
def jsonWs (c : Char) : Bool :=
  c = ' ' || c = '\t' || c = '\n' || c = '\r'

/-- Skip JSON structural whitespace. -/
def skipJsonWs (s : List Char) : List Char :=
  s.dropWhile jsonWs

/-- Value of one hex digit, if any. -/
def hexVal (c : Char) : Option Nat :=
  if 48 ≤ c.toNat && c.toNat ≤ 57 then some (c.toNat - 48)
  else if 97 ≤ c.toNat && c.toNat ≤ 102 then some (c.toNat - 87)
  else if 65 ≤ c.toNat && c.toNat ≤ 70 then some (c.toNat - 55)
  else none

/-- JSON string body after the opening quote: returns the decoded
characters and the input after the closing quote.  Unescaped control
characters are rejected (strict mode). -/
def parseJStr : Nat → List Char → Option (List Char × List Char)
  | 0, _ => none
  | _ + 1, [] => none
  | fuel + 1, c :: cs =>
    if c = '"' then some ([], cs)
    else if c = '\\' then
      match cs with
      | [] => none
      | e :: cs' =>
        let simpleEsc : Option Char :=
          if e = '"' then some '"'
          else if e = '\\' then some '\\'
          else if e = '/' then some '/'
          else if e = 'b' then some (Char.ofNat 8)
          else if e = 'f' then some (Char.ofNat 12)
          else if e = 'n' then some '\n'
          else if e = 'r' then some '\r'
          else if e = 't' then some '\t'
          else none
        match simpleEsc with
        | some d => (parseJStr fuel cs').map (fun p => (d :: p.1, p.2))
        | none =>
          if e = 'u' then
            match cs' with
            | h1 :: h2 :: h3 :: h4 :: cs'' =>
              match hexVal h1, hexVal h2, hexVal h3, hexVal h4 with
              | some v1, some v2, some v3, some v4 =>
                let d := Char.ofNat (((v1 * 16 + v2) * 16 + v3) * 16 + v4)
                (parseJStr fuel cs'').map (fun p => (d :: p.1, p.2))
              | _, _, _, _ => none
            | _ => none
          else none
    else if c.toNat < 32 then none
    else (parseJStr fuel cs).map (fun p => (c :: p.1, p.2))

/-- JSON number literal: `-? int frac? exp?`; returns the literal and the
rest.  `int` is `0` or a nonzero-led digit run. -/
def parseJNum (s : List Char) : Option (List Char × List Char) :=
  let (neg, s1) := match s with
    | '-' :: rest => ([ '-' ], rest)
    | _ => ([], s)
  let intPart := s1.takeWhile digitChar
  let s2 := s1.dropWhile digitChar
  if intPart = [] then none
  else if 1 < intPart.length && intPart.headD '0' = '0' then none
  else
    let (fracPart, s3) := match s2 with
      | '.' :: rest =>
        let ds := rest.takeWhile digitChar
        if ds = [] then ([], s2) else ('.' :: ds, rest.dropWhile digitChar)
      | _ => ([], s2)
    if fracPart = [] && (match s2 with | '.' :: _ => true | _ => false) then none
    else
      let (expPart, s4) := match s3 with
        | e :: rest =>
          if e = 'e' || e = 'E' then
            let (sgn, rest2) := match rest with
              | '+' :: r => ([ '+' ], r)
              | '-' :: r => ([ '-' ], r)
              | _ => (([] : List Char), rest)
            let ds := rest2.takeWhile digitChar
            if ds = [] then (([] : List Char), s3)
            else (e :: sgn ++ ds, rest2.dropWhile digitChar)
          else ([], s3)
        | [] => ([], s3)
      some (neg ++ intPart ++ fracPart ++ expPart, s4)

/-- Parser mode: a single value, or the tail of an array / object whose
already-parsed elements are carried in the mode. -/
inductive JMode where
  | value : JMode
  | arrTail : List JVal → JMode
  | objTail : List (List Char × JVal) → JMode

/-- Fuelled JSON parser.  In `value` mode the input must start directly at
a value (no whitespace skip — `raw_decode` semantics); `arrTail`/`objTail`
expect the next element / `"key": value` pair.  The fuel only bounds
nesting and element count and is never the reason a well-formed input
fails (`parseJsonValue` supplies `2 * length + 8`). -/
def jParse : Nat → JMode → List Char → Option (JVal × List Char)
  | 0, _, _ => none
  | _ + 1, JMode.value, [] => none
  | fuel + 1, JMode.value, c :: cs =>
    if c = '"' then (parseJStr (List.length cs + 1) cs).map (fun p => (JVal.str p.1, p.2))
    else if c = lbraceC then
      match skipJsonWs cs with
      | d :: ds => if d = rbraceC then some (JVal.obj [], ds)
                   else jParse fuel (JMode.objTail []) (d :: ds)
      | [] => none
    else if c = '[' then
      match skipJsonWs cs with
      | d :: ds => if d = ']' then some (JVal.arr [], ds)
                   else jParse fuel (JMode.arrTail []) (d :: ds)
      | [] => none
    else if startsWithL ( "true".toList) (c :: cs) then some (JVal.bool true, cs.drop 3)
    else if startsWithL ( "false".toList) (c :: cs) then some (JVal.bool false, cs.drop 4)
    else if startsWithL ( "null".toList) (c :: cs) then some (JVal.null, cs.drop 3)
    else if startsWithL ( "NaN".toList) (c :: cs) then some (JVal.num ( "NaN".toList), cs.drop 2)
    else if startsWithL ( "Infinity".toList) (c :: cs) then some (JVal.num ( "Infinity".toList), cs.drop 7)
    else if startsWithL ( "-Infinity".toList) (c :: cs) then some (JVal.num ( "-Infinity".toList), cs.drop 8)
    else (parseJNum (c :: cs)).map (fun p => (JVal.num p.1, p.2))
  | fuel + 1, JMode.arrTail acc, s =>
    match jParse fuel JMode.value s with
    | none => none
    | some (v, rest) =>
      match skipJsonWs rest with
      | ',' :: rest' => jParse fuel (JMode.arrTail (acc ++ [v])) (skipJsonWs rest')
      | ']' :: rest' => some (JVal.arr (acc ++ [v]), rest')
      | _ => none
  | fuel + 1, JMode.objTail acc, s =>
    match s with
    | '"' :: cs =>
      match parseJStr (List.length cs + 1) cs with
      | none => none
      | some (key, rest) =>
        match skipJsonWs rest with
        | ':' :: rest' =>
          match jParse fuel JMode.value (skipJsonWs rest') with
          | none => none
          | some (v, rest'') =>
            match skipJsonWs rest'' with
            | ',' :: rest3 => jParse fuel (JMode.objTail (acc ++ [(key, v)])) (skipJsonWs rest3)
            | d :: rest3 => if d = rbraceC then some (JVal.obj (acc ++ [(key, v)]), rest3) else none
            | [] => none
        | _ => none
    | _ => none

/-- Parse one JSON value starting at the first character. -/
def parseJsonValue (s : List Char) : Option (JVal × List Char) :=
  jParse (2 * s.length + 8) JMode.value s

/-- Python `json.loads`: optional surrounding whitespace, nothing else. -/
def pyJsonLoads (s : List Char) : Option JVal :=
  match parseJsonValue (skipJsonWs s) with
  | some (v, rest) => if skipJsonWs rest = [] then some v else none
  | none => none

/-- `JSONDecoder.raw_decode(text)` at index 0: parse the first value,
ignore trailing data, and (unlike `loads`) do not skip leading
whitespace. -/
def rawDecode (s : List Char) : Option JVal :=
  (parseJsonValue s).map Prod.fst

/-- `_parse_json_fragment` (`src/app/domain/llm_client.py`, lines
124-137): `loads` first, `raw_decode` on a decode error, `None` when both
fail or the text is empty. -/
def parseJsonFragment (s : List Char) : Option JVal :=
  if s = [] then none
  else
    match pyJsonLoads s with
    | some v => some v
    | none => rawDecode s

/-- Python dict lookup for a parsed JSON object: duplicate keys are
overwritten in insertion order, so the last binding wins. -/
def jLookup (fields : List (List Char × JVal)) (key : List Char) : Option JVal :=
  (fields.reverse.find? (fun kv => kv.1 = key)).map (fun kv => kv.2)

/-- Comma-joined rendering used inside `pyReprF`. -/
def joinSep (sep : List Char) : List (List Char) → List Char
  | [] => []
  | [x] => x
  | x :: y :: rest => x ++ sep ++ joinSep sep (y :: rest)

/-- Fuelled Python `repr` of a parsed JSON value (`repr` of the
corresponding Python object).  String escapes inside `repr` are not
re-encoded — no claim renders a container or exotic string this way. -/
def pyReprF : Nat → JVal → List Char
  | _, JVal.null => "None".toList
  | _, JVal.bool true => "True".toList
  | _, JVal.bool false => "False".toList
  | _, JVal.num lit => lit
  | _, JVal.str s => aposC :: s ++ [ aposC ]
  | 0, _ => []
  | fuel + 1, JVal.arr items =>
    '[' :: joinSep ( ", ".toList) (items.map (pyReprF fuel)) ++ [ ']' ]
  | fuel + 1, JVal.obj fields =>
    lbraceC :: joinSep ( ", ".toList)
      (fields.map (fun kv => aposC :: kv.1 ++ aposC :: ':' :: ' ' :: pyReprF fuel kv.2)) ++ [ rbraceC ]

/-- Python `str()` of a parsed JSON value: identity on strings, `repr`
otherwise (numbers keep their literal; see `JVal.num`).  The fuel bounds
container nesting; call sites pass the length of the text the value was
parsed from (a value's depth never exceeds the length of its source
text), so the bound is never hit. -/
def pyStrF (fuel : Nat) : JVal → List Char
  | JVal.str s => s
  | v => pyReprF fuel v

/-- Python exception escaping a modelled function. -/
inductive PyErr where
  | typeErr : PyErr
deriving DecidableEq, Repr

/-- Python `list()` applied to a parsed JSON value: lists yield their
items, strings their characters, dicts their keys; `None`, booleans and
numbers raise `TypeError`. -/
def pyToList : JVal → Except PyErr (List JVal)
  | JVal.arr items => Except.ok items
  | JVal.str s => Except.ok (s.map (fun c => JVal.str [c]))
  | JVal.obj fields => Except.ok (fields.map (fun kv => JVal.str kv.1))
  | _ => Except.error PyErr.typeErr

/-- `endswith` on lists. -/
def endsWithL (p s : List Char) : Bool :=
  startsWithL p.reverse s.reverse

/-- The fence regex of `_JSON_BLOCK_RE`
(`^\x60\x60\x60(?:json)?\s*(.*?)\s*\x60\x60\x60$`, IGNORECASE, DOTALL):
`some inner` when the stripped text is fenced, where `inner` is
`group(1).strip()` (stripping makes the greedy/lazy whitespace split
irrelevant). -/
def jsonBlockStrip (text : List Char) : Option (List Char) :=
  let fence := List.replicate 3 (Char.ofNat 96)
  if startsWithL fence text then
    let afterTicks := text.drop 3
    let body :=
      if lowStr (afterTicks.take 4) = "json".toList then afterTicks.drop 4 else afterTicks
    if 3 ≤ body.length && endsWithL fence body then
      some (trimBoth (body.take (body.length - 3)))
    else none
  else none

/-- `_normalize_json_payload` (`src/app/domain/llm_client.py`, lines
93-112): strip, unfence, and cut to the first brace/bracket when the text
does not already start with one. -/
def normalizeJsonPayload (payload : List Char) : List Char :=
  let text := trimBoth payload
  if text = [] then []
  else
    let text := match jsonBlockStrip text with
      | some inner => inner
      | none => text
    if startsWithL [ lbraceC ] text || startsWithL [ '[' ] text then text
    else
      let firstBrace := text.findIdx? (fun c => c = lbraceC)
      let firstBracket := text.findIdx? (fun c => c = '[')
      let idx : Option Nat := match firstBrace, firstBracket with
        | some i, some j => some (min i j)
        | some i, none => some i
        | none, some j => some j
        | none, none => none
      match idx with
      | none => text
      | some i =>
        let candidate := trimBoth (text.drop i)
        if candidate = [] then text else candidate

/-! ## LLMClient (`src/app/domain/llm_client.py`)
The provider SDK is modelled at the `_request_completion` boundary: an
oracle `req : ReqKind → Except Unit LLMReply` stands for one completion
request (the `ReqKind` tags the call site, the summarisation attempts
carrying their excerpt limit), `Except.error` for an SDK/transport
exception, and `LLMReply` for the `(content, prompt_tokens,
completion_tokens, finish_reason)` tuple produced by
`_extract_response_payload`.  `_build_prompt` only assembles the prompt
text and is not modelled separately.  Each model function additionally
returns the list of requests it issued, in order. -/

/-- Normalised `(content, prompt_tokens, completion_tokens, finish_reason)`
tuple returned by `_request_completion`. -/
structure LLMReply where
  content : List Char
  promptTokens : Nat
  completionTokens : Nat
  finishReason : Option (List Char)
deriving DecidableEq, Repr

/-- Identifies one `_request_completion` call site. -/
inductive ReqKind where
  | summary : Nat → ReqKind
  | bulkTranslate : ReqKind
  | fieldTranslate : List Char → ReqKind
  | keywordsTranslate : ReqKind
  | plainText : ReqKind
  | plainKeywords : ReqKind
deriving DecidableEq, Repr

/-- `LLMResult` (lines 146-159).  `palavras_chave` is declared `list[str]`
but the code stores whatever `list(...)` yields, hence `List JVal`; the
estimated `cost` float is modelled as a rational (every cost the code ever
assigns is literally `0.0`, so this is exact). -/
structure LLMResult where
  resumo_uma_frase : List Char
  resumo : List Char
  assunto_principal : List Char
  palavras_chave : List JVal
  resumo_em_topicos : List Char
  prompt_tokens : Nat
  completion_tokens : Nat
  model : List Char
  cost : ℚ

/-- The all-empty result returned for a blank transcript (line 206). -/
def emptyLLMResult (modelName : List Char) : LLMResult :=
  { resumo_uma_frase := [], resumo := [], assunto_principal := [],
    palavras_chave := [], resumo_em_topicos := [], prompt_tokens := 0,
    completion_tokens := 0, model := modelName, cost := 0 }

/-- `str.split()` with no argument: whitespace runs separate words, empty
words are dropped. -/
def splitWsAux (acc : List Char) : List Char → List (List Char)
  | [] => if acc = [] then [] else [acc.reverse]
  | c :: cs =>
    if wsChar c then
      if acc = [] then splitWsAux [] cs else acc.reverse :: splitWsAux [] cs
    else splitWsAux (c :: acc) cs

/-- Python `transcript.split()`. -/
def splitWs (s : List Char) : List (List Char) :=
  splitWsAux [] s

/-- `str.split(sep)` for a one-character separator (keeps empty pieces). -/
def splitChAux (sep : Char) (acc : List Char) : List Char → List (List Char)
  | [] => [acc.reverse]
  | c :: cs =>
    if c = sep then acc.reverse :: splitChAux sep [] cs
    else splitChAux sep (c :: acc) cs

/-- Python `s.split(sep)` for a one-character separator. -/
def splitCh (sep : Char) (s : List Char) : List (List Char) :=
  splitChAux sep [] s

/-- `word.startswith("[") and word.endswith("]")` — the bracketed
annotation filter of `_heuristic_summary` (line 616). -/
def bracketTok (w : List Char) : Bool :=
  match w with
  | [] => false
  | c :: _ => c = '[' && (w.getLast? = some ']')

/-- Member of the strip set `".,;:!?\"'"` of line 623. -/
def puncChar (c : Char) : Bool :=
  c = '.' || c = ',' || c = ';' || c = ':' || c = '!' || c = '?' ||
  c = '"' || c = aposC

/-- Python `w.strip(".,;:!?\"'")`: drop those characters on both ends. -/
def stripPunc (w : List Char) : List Char :=
  ((w.dropWhile puncChar).reverse.dropWhile puncChar).reverse

/-- Python string `<` (lexicographic by code point). -/
def strLt : List Char → List Char → Bool
  | [], [] => false
  | [], _ :: _ => true
  | _ :: _, [] => false
  | x :: xs, y :: ys =>
    if x.toNat < y.toNat then true
    else if y.toNat < x.toNat then false
    else strLt xs ys

/-- Insert into an ascending list. -/
def insSorted (x : List Char) : List (List Char) → List (List Char)
  | [] => [x]
  | y :: ys => if strLt x y then x :: y :: ys else y :: insSorted x ys

/-- Insertion sort by `strLt`. -/
def insSort : List (List Char) → List (List Char)
  | [] => []
  | x :: xs => insSorted x (insSort xs)

/-- Keep the first occurrence of each string. -/
def dedupSeen (seen : List (List Char)) : List (List Char) → List (List Char)
  | [] => []
  | x :: xs =>
    if x ∈ seen then dedupSeen seen xs else x :: dedupSeen (x :: seen) xs

/-- Python `sorted({...})` over strings: the distinct values in ascending
order (set iteration order is irrelevant after sorting). -/
def sortedSet (l : List (List Char)) : List (List Char) :=
  insSort (dedupSeen [] l)

/-- `LLMClient._heuristic_summary` (lines 607-635).  Note the two guards
the code applies: when every word is a bracketed token the filter result is
discarded (`if filtered_words:`), and at least one word is always kept
(`max(1, min(len(words), max_palavras))`). -/
def heuristicSummary (modelName title transcript : List Char)
    (maxPalavras : Nat) : LLMResult :=
  let words0 := splitWs transcript
  let filteredWords := words0.filter (fun w => !bracketTok w)
  let words := if filteredWords = [] then words0 else filteredWords
  let resumoWords := words.take (max 1 (min words.length maxPalavras))
  let resumo := joinSep [ ' ' ] resumoWords
  let resumoUmaFrase := if resumo = [] then [] else (resumo.takeWhile (fun c => c ≠ '.')).take 280
  let keywords := sortedSet (((words.take 200).filter (fun w => 4 < w.length)).map
    (fun w => lowStr (stripPunc w)))
  let topicos := joinSep [ '\n' ] ((keywords.take 8).map (fun t => '-' :: ' ' :: t))
  { resumo_uma_frase := resumoUmaFrase, resumo := resumo,
    assunto_principal := title.take 120,
    palavras_chave := (keywords.take 12).map JVal.str,
    resumo_em_topicos := topicos, prompt_tokens := 0, completion_tokens := 0,
    model := modelName, cost := 0 }

/-- The JSON keys recognised at lines 286-291. -/
def keyUmaFrase : List Char := "resumo_do_video_uma_frase".toList

/-- Key of the narrative summary field. -/
def keyResumo : List Char := "resumo_do_video".toList

/-- Key of the main-topic field. -/
def keyAssunto : List Char := "assunto_principal".toList

/-- Key of the keyword-list field. -/
def keyPalavras : List Char := "palavras_chave".toList

/-- Key of the topic-outline field. -/
def keyTopicos : List Char := "resumo_em_topicos".toList

/-- The truncation marker compared at line 246. -/
def lengthLit : List Char := "length".toList

/-- `True` for a parsed value that Python's `in (None, "")` test hits. -/
def isNoneOrEmptyStr : JVal → Bool
  | JVal.null => true
  | JVal.str [] => true
  | _ => false

/-- `[str(item) for item in raw if item not in (None, "")]`. -/
def strFilterItems (fuel : Nat) (items : List JVal) : List JVal :=
  (items.filter (fun v => !isNoneOrEmptyStr v)).map (fun v => JVal.str (pyStrF fuel v))

/-- `[item.strip() for item in raw.split(",") if item.strip()]`. -/
def commaSplitKw (s : List Char) : List JVal :=
  (((splitCh ',' s).map trimBoth).filter (fun t => t ≠ [])).map JVal.str

/-- `str(data.get(key, ""))`: a missing key yields the empty string. -/
def strField (fuel : Nat) (fields : List (List Char × JVal)) (key : List Char) : List Char :=
  match jLookup fields key with
  | some v => pyStrF fuel v
  | none => []

/-- Building the `LLMResult` of lines 286-296 from a parsed JSON object:
`list(data.get("palavras_chave", []))` raises `TypeError` when the value
is `null`, a boolean or a number; `cost` is the literal `0.0` of line
295. -/
def resultFromFields (modelName : List Char) (fuel : Nat)
    (fields : List (List Char × JVal)) (promptTokens completionTokens : Nat) :
    Except PyErr LLMResult :=
  let palavrasVal := match jLookup fields keyPalavras with
    | some v => v
    | none => JVal.arr []
  match pyToList palavrasVal with
  | Except.error e => Except.error e
  | Except.ok items =>
    Except.ok
      { resumo_uma_frase := strField fuel fields keyUmaFrase,
        resumo := strField fuel fields keyResumo,
        assunto_principal := strField fuel fields keyAssunto,
        palavras_chave := items,
        resumo_em_topicos := strField fuel fields keyTopicos,
        prompt_tokens := promptTokens, completion_tokens := completionTokens,
        model := modelName, cost := 0 }

/-- `_simple_translate_text` (lines 559-581): plain-text translation
request, returning the original text on a blank input, an SDK error or an
empty reply. -/
def simpleTranslateText (req : ReqKind → Except Unit LLMReply)
    (text : List Char) : List Char × List ReqKind :=
  if trimBoth text = [] then (text, [])
  else
    match req ReqKind.plainText with
    | Except.error _ => (text, [ReqKind.plainText])
    | Except.ok reply =>
      let translated := trimBoth reply.content
      (if translated = [] then text else translated, [ReqKind.plainText])

/-- `_translate_text_field` (lines 497-526): JSON-mode per-field
translation with `_simple_translate_text` as fallback.  Unlike the main
loop, a list reply is unwrapped to its first element whether or not that
element is a dict. -/
def translateTextField (req : ReqKind → Except Unit LLMReply)
    (label text : List Char) : List Char × List ReqKind :=
  if trimBoth text = [] then (text, [])
  else
    let truncated := text.take 4000
    match req (ReqKind.fieldTranslate label) with
    | Except.error _ =>
      let p := simpleTranslateText req truncated
      (p.1, ReqKind.fieldTranslate label :: p.2)
    | Except.ok reply =>
      let fallback := fun (_ : Unit) =>
        let p := simpleTranslateText req truncated
        (p.1, ReqKind.fieldTranslate label :: p.2)
      let sanitized := normalizeJsonPayload reply.content
      if sanitized = [] then fallback ()
      else
        let data0 := match parseJsonFragment sanitized with
          | some d => d
          | none => JVal.null
        let data := match data0 with
          | JVal.arr (first :: _) => first
          | d => d
        match data with
        | JVal.obj fields =>
          match jLookup fields label with
          | some v =>
            if isNoneOrEmptyStr v then fallback ()
            else (pyStrF (sanitized.length + 1) v, [ReqKind.fieldTranslate label])
          | none => fallback ()
        | _ => fallback ()

/-- `", ".join(keywords)`: raises `TypeError` unless every item is a
string. -/
def pyJoinComma : List JVal → Except PyErr (List Char)
  | [] => Except.ok []
  | [JVal.str s] => Except.ok s
  | JVal.str s :: v :: rest =>
    match pyJoinComma (v :: rest) with
    | Except.ok tail => Except.ok (s ++ ',' :: ' ' :: tail)
    | e => e
  | _ => Except.error PyErr.typeErr

/-- `_simple_translate_keywords` (lines 583-605).  The `", ".join` at line
584 runs before the guarded request and is the only raising step. -/
def simpleTranslateKeywords (req : ReqKind → Except Unit LLMReply)
    (keywords : List JVal) : Except PyErr (List JVal × List ReqKind) :=
  match pyJoinComma keywords with
  | Except.error e => Except.error e
  | Except.ok _ =>
    match req ReqKind.plainKeywords with
    | Except.error _ => Except.ok (keywords, [ReqKind.plainKeywords])
    | Except.ok reply =>
      let translated := trimBoth reply.content
      if translated = [] then Except.ok (keywords, [ReqKind.plainKeywords])
      else Except.ok (commaSplitKw translated, [ReqKind.plainKeywords])

/-- `_translate_keywords` (lines 528-557).  A `TypeError` raised by the
fallback inside the `try` is caught, but the closing fallback call raises
it again, so the net effect equals the fallback's own outcome. -/
def translateKeywords (req : ReqKind → Except Unit LLMReply)
    (keywords : List JVal) : Except PyErr (List JVal × List ReqKind) :=
  if keywords.isEmpty then Except.ok (keywords, [])
  else
    let fallback := fun (_ : Unit) =>
      match simpleTranslateKeywords req keywords with
      | Except.error e => Except.error e
      | Except.ok p => Except.ok (p.1, ReqKind.keywordsTranslate :: p.2)
    match req ReqKind.keywordsTranslate with
    | Except.error _ => fallback ()
    | Except.ok reply =>
      let sanitized := normalizeJsonPayload reply.content
      if sanitized = [] then fallback ()
      else
        let data0 := match parseJsonFragment sanitized with
          | some d => d
          | none => JVal.null
        let data := match data0 with
          | JVal.arr (first :: _) => first
          | d => d
        match data with
        | JVal.obj fields =>
          match jLookup fields ( "palavras".toList) with
          | some (JVal.arr items) =>
            Except.ok (strFilterItems (sanitized.length + 1) items, [ReqKind.keywordsTranslate])
          | some (JVal.str s) => Except.ok (commaSplitKw s, [ReqKind.keywordsTranslate])
          | _ => fallback ()
        | _ => fallback ()

/-- `_translate_fields_individually` (lines 479-495): four per-field
translations then the keyword translation. -/
def translateFieldsIndividually (req : ReqKind → Except Unit LLMReply)
    (result : LLMResult) : Except PyErr (LLMResult × List ReqKind) :=
  let p1 := translateTextField req ( "resumo_uma_frase".toList) result.resumo_uma_frase
  let p2 := translateTextField req ( "resumo".toList) result.resumo
  let p3 := translateTextField req ( "assunto".toList) result.assunto_principal
  let p4 := translateTextField req ( "topicos".toList) result.resumo_em_topicos
  match translateKeywords req result.palavras_chave with
  | Except.error e => Except.error e
  | Except.ok (kw, t5) =>
    Except.ok
      ({ result with
          resumo_uma_frase := p1.1,
          resumo := p2.1,
          assunto_principal := p3.1,
          resumo_em_topicos := p4.1,
          palavras_chave := kw },
       p1.2 ++ p2.2 ++ p3.2 ++ p4.2 ++ t5)

/-- `_bulk_translate_payload` (lines 441-477): one JSON-mode request; a
parsed dict (or first element of a list of dicts) succeeds, everything
else yields `None`.  The returned fuel is the sanitized text's length,
passed on to `pyStrF`. -/
def bulkTranslatePayload (req : ReqKind → Except Unit LLMReply) :
    Option (List (List Char × JVal) × Nat) × List ReqKind :=
  match req ReqKind.bulkTranslate with
  | Except.error _ => (none, [ReqKind.bulkTranslate])
  | Except.ok reply =>
    let sanitized := normalizeJsonPayload reply.content
    if sanitized = [] then (none, [ReqKind.bulkTranslate])
    else
      match parseJsonFragment sanitized with
      | some (JVal.obj fields) => (some (fields, sanitized.length + 1), [ReqKind.bulkTranslate])
      | some (JVal.arr (JVal.obj fields :: _)) => (some (fields, sanitized.length + 1), [ReqKind.bulkTranslate])
      | _ => (none, [ReqKind.bulkTranslate])

/-- `_translate_result_fields` (lines 407-439): bulk translation, falling
back to per-field translation; tokens, model and cost are preserved. -/
def translateResultFields (req : ReqKind → Except Unit LLMReply)
    (result : LLMResult) : Except PyErr (LLMResult × List ReqKind) :=
  match bulkTranslatePayload req with
  | (none, t0) =>
    match translateFieldsIndividually req result with
    | Except.error e => Except.error e
    | Except.ok (r, t1) => Except.ok (r, t0 ++ t1)
  | (some (fields, fuel), t0) =>
    let palavras := match jLookup fields keyPalavras with
      | some (JVal.arr items) => strFilterItems fuel items
      | some (JVal.str s) => commaSplitKw s
      | some _ => result.palavras_chave
      | none => strFilterItems fuel result.palavras_chave
    let getStr := fun (key fallback : List Char) =>
      match jLookup fields key with
      | some v => pyStrF fuel v
      | none => fallback
    Except.ok
      ({ resumo_uma_frase := getStr keyUmaFrase result.resumo_uma_frase,
         resumo := getStr keyResumo result.resumo,
         assunto_principal := getStr keyAssunto result.assunto_principal,
         palavras_chave := palavras,
         resumo_em_topicos := getStr keyTopicos result.resumo_em_topicos,
         prompt_tokens := result.prompt_tokens,
         completion_tokens := result.completion_tokens,
         model := result.model, cost := result.cost }, t0)

/-- The descending excerpt-limit ladder of line 210. -/
def excerptLimits : List Nat := [8000, 6000, 4000, 2500, 1500, 900, 600]

/-- The translate modes that normalise to `"pt-br"` (line 212). -/
def ptModes : List (List Char) :=
  [ "pt".toList, "pt-br".toList, "pt_br".toList, "portugues".toList,
    "português".toList, "br".toList ]

/-- The `for index, excerpt_limit in enumerate(excerpt_limits)` loop of
lines 214-305.  `Except.ok (none, trace)` is the exhausted/`break` exit
(heuristic fallback follows in `summariseModel`), `Except.ok (some r, _)`
the `return result` of line 299 before any translation, and
`Except.error` a `TypeError` escaping `list(...)` at line 290.  The
`continue`-on-truncated checks inside the sanitize/parse failure branches
(lines 262-263, 272-273) are unreachable — a truncated non-final attempt
already continued at line 247 — so those branches always `break`. -/
def summariseAttempts (modelName : List Char)
    (req : ReqKind → Except Unit LLMReply) :
    List Nat → List ReqKind → Except PyErr (Option LLMResult × List ReqKind)
  | [], trace => Except.ok (none, trace)
  | limit :: rest, trace =>
    let trace' := trace ++ [ReqKind.summary limit]
    match req (ReqKind.summary limit) with
    | Except.error _ => summariseAttempts modelName req rest trace'
    | Except.ok reply =>
      if reply.content = [] then summariseAttempts modelName req rest trace'
      else if reply.finishReason = some lengthLit ∧ rest ≠ [] then
        summariseAttempts modelName req rest trace'
      else
        let sanitized := normalizeJsonPayload reply.content
        if sanitized = [] then Except.ok (none, trace')
        else
          match parseJsonFragment sanitized with
          | none => Except.ok (none, trace')
          | some data0 =>
            let data := match data0 with
              | JVal.arr (JVal.obj fields :: _) => JVal.obj fields
              | d => d
            match data with
            | JVal.obj fields =>
              match resultFromFields modelName (sanitized.length + 1) fields
                  reply.promptTokens reply.completionTokens with
              | Except.error e => Except.error e
              | Except.ok result => Except.ok (some result, trace')
            | _ => summariseAttempts modelName req rest trace'

/-- `LLMClient.summarise` (lines 193-311).  `active` is the
`self._client is not None` property; a blank transcript returns the
all-empty result, an inactive client the heuristic summary, both without
any request.  When the translate mode normalises to `"pt-br"` the
successful (or heuristic) result goes through
`_translate_result_fields`. -/
def summariseModel (active : Bool) (modelName : List Char)
    (title transcript channel : List Char) (maxPalavras : Nat)
    (translateMode : List Char) (req : ReqKind → Except Unit LLMReply) :
    Except PyErr (LLMResult × List ReqKind) :=
  let _ := channel
  let transcriptClean := trimBoth transcript
  if transcriptClean = [] then Except.ok (emptyLLMResult modelName, [])
  else if !active then
    Except.ok (heuristicSummary modelName title transcriptClean maxPalavras, [])
  else
    let toPt := (lowStr translateMode) ∈ ptModes
    match summariseAttempts modelName req excerptLimits [] with
    | Except.error e => Except.error e
    | Except.ok (some result, trace) =>
      if toPt then
        match translateResultFields req result with
        | Except.error e => Except.error e
        | Except.ok (r, t1) => Except.ok (r, trace ++ t1)
      else Except.ok (result, trace)
    | Except.ok (none, trace) =>
      let heuristic := heuristicSummary modelName title transcriptClean maxPalavras
      if toPt then
        match translateResultFields req heuristic with
        | Except.error e => Except.error e
        | Except.ok (r, t1) => Except.ok (r, trace ++ t1)
      else Except.ok (heuristic, trace)

/-! ## Price table and cost estimate
`src/app/domain/web_prompt_execution.py`, lines 19-23 and 61-67.  There
the import `from app.domain.llm_client import _MODEL_PRICES` fails — no such
name exists in `llm_client.py` — so the `except` branch binds
`MODEL_PRICES = {}` and the table is empty. -/

/-- `MODEL_PRICES`: empty, because the guarded import of `_MODEL_PRICES`
fails (the name is not defined anywhere in the repository). -/
def MODEL_PRICES : List (List Char × ℚ × ℚ) := []

/-- Python `round(x, 4)` (ties rounded to even in Python; the difference
from `round` is unreachable below because the table is empty). -/
def roundQ4 (q : ℚ) : ℚ :=
  (round (q * 10000) : ℤ) / 10000

/-- `_estimate_cost(model, prompt_tokens, completion_tokens)` (lines
61-67): per-1000-token input/output prices looked up by lower-cased model
name, `0.0` when the model is unlisted — with the empty table, always
`0.0`. -/
def estimateCost (modelName : List Char) (promptTokens completionTokens : Nat) : ℚ :=
  match MODEL_PRICES.find? (fun e => e.1 = lowStr modelName) with
  | none => 0
  | some (_, inp, outp) =>
    roundQ4 ((promptTokens : ℚ) / 1000 * inp + (completionTokens : ℚ) / 1000 * outp)

/-! ## TranscriptResolver
Embedding of `YouTubeExtractor.fetch_transcript_text`
(`src/app/domain/youtube/extractor_plus.py`, lines 593-750).  The
`youtube_transcript_api` library is the oracle: the listing call, each
track's `fetch()`, each `translate("pt")` and the translated track's
`fetch()` get an oracle outcome, and `_fetch_transcript_ytdlp` (lines
522-576, the legacy yt-dlp caption fallback) is summarised by the text it
returns.  Next to its text result, the model returns the ordered trace of
external attempts, which is what the cascade claims quantify over. -/

/-- One listed caption track (language code and the auto-generated
flag). -/
structure Track where
  language_code : List Char
  is_generated : Bool
deriving DecidableEq, Repr

/-- Outcome of a `tr.fetch()` call: the `_join`ed text, a
`blocked_errors` exception (`RequestBlocked`, `IpBlocked`,
`YouTubeRequestFailed`, `CouldNotRetrieveTranscript`), or any other
exception. -/
inductive FetchRes where
  | text : List Char → FetchRes
  | blocked : FetchRes
  | err : FetchRes
deriving DecidableEq, Repr

/-- Outcome of a `tr.translate("pt")` call. -/
inductive TransRes where
  | ok : TransRes
  | notAvailable : TransRes
  | blocked : TransRes
  | err : TransRes
deriving DecidableEq, Repr

/-- Outcome of listing the video's caption tracks (step 1, lines
637-664): the concrete track list, a `blocked_errors` exception, any
other listing failure, or an unusable/missing
`youtube_transcript_api` import (lines 601-617). -/
inductive ListingRes where
  | ok : List Track → ListingRes
  | blocked : ListingRes
  | err : ListingRes
  | libMissing : ListingRes
deriving DecidableEq, Repr

/-- External attempts the resolver can make, indexed by the track's
position in the listing. -/
inductive TEvent where
  | fetchNative : Nat → TEvent
  | translatePt : Nat → TEvent
  | fetchTranslated : Nat → TEvent
  | ytdlp : TEvent
deriving DecidableEq, Repr

/-- The collaborators of one `fetch_transcript_text` call. -/
structure TranscriptOracle where
  listing : ListingRes
  fetchNative : Nat → FetchRes
  translatePt : Nat → TransRes
  fetchTranslated : Nat → FetchRes
  ytdlpText : List Char

/-- `_try_fetch` (lines 675-695) applied to a fetch outcome: non-blank
text wins; a blocked error tries the yt-dlp fallback inline and reports
`blocked = true` only when that also came back empty; other errors are
swallowed. -/
def tryFetchWith (o : TranscriptOracle) (res : FetchRes) (ev : TEvent) :
    (List Char × Bool) × List TEvent :=
  match res with
  | FetchRes.text t =>
    if trimBoth t = [] then (([], false), [ev]) else ((t, false), [ev])
  | FetchRes.blocked =>
    if o.ytdlpText = [] then (([], true), [ev, TEvent.ytdlp])
    else ((o.ytdlpText, false), [ev, TEvent.ytdlp])
  | FetchRes.err => (([], false), [ev])

/-- `find_manually_created_transcript([lang])` of the library: the first
manually created track with exactly that language code. -/
def findManualIdx (tracks : List Track) (lang : List Char) : Option Nat :=
  tracks.findIdx? (fun t => !t.is_generated && t.language_code = lang)

/-- `find_generated_transcript([lang])`: the first auto-generated track
with exactly that language code. -/
def findGeneratedIdx (tracks : List Track) (lang : List Char) : Option Nat :=
  tracks.findIdx? (fun t => t.is_generated && t.language_code = lang)

/-- One guarded `find` + `_try_fetch` attempt of lines 699-716: `none`
index (the library raised `NoTranscriptFound`) is a silent pass; found
text returns it, a blocked fetch returns the yt-dlp fallback. -/
def attemptIdx (o : TranscriptOracle) (idx : Option Nat) :
    Option (List Char) × List TEvent :=
  match idx with
  | none => (none, [])
  | some i =>
    match tryFetchWith o (o.fetchNative i) (TEvent.fetchNative i) with
    | ((text, blocked), evs) =>
      if text ≠ [] then (some text, evs)
      else if blocked then (some o.ytdlpText, evs ++ [TEvent.ytdlp])
      else (none, evs)

/-- Step 2 (lines 697-716): for each language, a manual then a generated
attempt. -/
def langLoop (o : TranscriptOracle) (tracks : List Track) :
    List (List Char) → Option (List Char) × List TEvent
  | [] => (none, [])
  | lang :: rest =>
    match attemptIdx o (findManualIdx tracks lang) with
    | (some t, evs) => (some t, evs)
    | (none, evs1) =>
      match attemptIdx o (findGeneratedIdx tracks lang) with
      | (some t, evs2) => (some t, evs1 ++ evs2)
      | (none, evs2) =>
        match langLoop o tracks rest with
        | (r, evs3) => (r, evs1 ++ evs2 ++ evs3)

/-- Step 3 (lines 718-739): translate each track to `pt` in listing
order; `TranslationLanguageNotAvailable` and other errors move on, a
blocked error short-circuits to the yt-dlp fallback. -/
def transLoop (o : TranscriptOracle) : Nat → List Track →
    Option (List Char) × List TEvent
  | _, [] => (none, [])
  | i, _ :: rest =>
    match o.translatePt i with
    | TransRes.ok =>
      match tryFetchWith o (o.fetchTranslated i) (TEvent.fetchTranslated i) with
      | ((text, blocked), evs0) =>
        let evs := TEvent.translatePt i :: evs0
        if text ≠ [] then (some text, evs)
        else if blocked then (some o.ytdlpText, evs ++ [TEvent.ytdlp])
        else
          match transLoop o (i + 1) rest with
          | (r, evs') => (r, evs ++ evs')
    | TransRes.notAvailable =>
      match transLoop o (i + 1) rest with
      | (r, evs') => (r, TEvent.translatePt i :: evs')
    | TransRes.blocked => (some o.ytdlpText, [TEvent.translatePt i, TEvent.ytdlp])
    | TransRes.err =>
      match transLoop o (i + 1) rest with
      | (r, evs') => (r, TEvent.translatePt i :: evs')

/-- Step 4 (lines 741-747): fetch each track "as is" in listing order. -/
def plainLoop (o : TranscriptOracle) : Nat → List Track →
    Option (List Char) × List TEvent
  | _, [] => (none, [])
  | i, _ :: rest =>
    match attemptIdx o (some i) with
    | (some t, evs) => (some t, evs)
    | (none, evs) =>
      match plainLoop o (i + 1) rest with
      | (r, evs') => (r, evs ++ evs')

/-- `fetch_transcript_text` (lines 593-750): a missing library returns
the empty string with no attempt; a listing failure of either error class
and an empty listing go straight to the yt-dlp fallback; otherwise the
four-step cascade runs, finishing with the yt-dlp fallback when
everything stayed empty. -/
def fetchTranscriptText (o : TranscriptOracle) (preferred : List (List Char)) :
    List Char × List TEvent :=
  match o.listing with
  | ListingRes.libMissing => ([], [])
  | ListingRes.blocked => (o.ytdlpText, [TEvent.ytdlp])
  | ListingRes.err => (o.ytdlpText, [TEvent.ytdlp])
  | ListingRes.ok tracks =>
    match tracks with
    | [] => (o.ytdlpText, [TEvent.ytdlp])
    | _ :: _ =>
      let langs := preferred ++ [ "pt-BR".toList, "pt-PT".toList, "en".toList ]
      match langLoop o tracks langs with
      | (some t, evs) => (t, evs)
      | (none, evs1) =>
        match transLoop o 0 tracks with
        | (some t, evs2) => (t, evs1 ++ evs2)
        | (none, evs2) =>
          match plainLoop o 0 tracks with
          | (some t, evs3) => (t, evs1 ++ evs2 ++ evs3)
          | (none, evs3) => (o.ytdlpText, evs1 ++ evs2 ++ evs3 ++ [TEvent.ytdlp])

/-- The default preferred-language order of line 599. -/
def defaultPreferredLangs : List (List Char) :=
  [ "pt".toList, "pt-BR".toList, "pt-PT".toList, "en".toList ]

/-- The per-video analysis-source tags used by the service. -/
def tagYoutube : List Char := "transcricao_youtube".toList

/-- Tag recorded when no transcript could be produced. -/
def tagSemTranscricao : List Char := "sem_transcricao".toList

/-- Tag for a transcript produced by the OpenAI speech API. -/
def tagAsrOpenai : List Char := "asr_openai".toList

/-- Tag for a transcript produced by the local faster-whisper engine. -/
def tagAsrFasterWhisper : List Char := "asr_faster_whisper".toList

/-- `YouTubeExecutionService._obter_transcricao`
(`src/app/domain/youtube/service.py`, lines 409-440), given the text the
extractor produced, whether the audio download succeeded and what the
selected ASR backend returned.  The temporary-directory management is
I/O. -/
def obterTranscricao (asrEnabled : Bool) (asrProvider : List Char)
    (transcriptText : List Char) (audioOk : Bool) (asrOut : List Char) :
    List Char × List Char :=
  if transcriptText ≠ [] then (transcriptText, tagYoutube)
  else if !asrEnabled then ([], tagSemTranscricao)
  else if !audioOk then ([], tagSemTranscricao)
  else if asrProvider = "openai".toList then
    if asrOut ≠ [] then (asrOut, tagAsrOpenai) else ([], tagSemTranscricao)
  else
    if asrOut ≠ [] then (asrOut, tagAsrFasterWhisper) else ([], tagSemTranscricao)

/-! ## ExtractionOrchestrator
Embedding of `YouTubeExecutionService.run`
(`src/app/domain/youtube/service.py`, lines 75-318).  The extractor, the
LLM client and the ASR chain are collaborators reached through a
`RunOracle`; `channels` is the output of `_resolve_channels` (lines
320-340, CLI/file/database resolution with de-duplication — pure
configuration, taken as input).  Logging, progress notifications, report
files and the history record (lines 84-102, 279-294) carry no decision
logic and are not modelled; neither are the result's path/timestamp
fields. -/

/-- The configuration slice of `YouTubeExtractionConfig` that `run`
consults. -/
structure RunConfig where
  days : Option Nat
  maxVideos : Option Nat
  mode : List Char
  noLlm : Bool
  asrEnabled : Bool
  asrProvider : List Char
  translateResults : List Char
  resumoMaxPalavras : Nat
  llmModel : List Char

/-- Result dict of `extract_channel_info` (extractor lines 360-416):
either `status = "error"` with a message, or `status = "success"` with
the parsed fields. -/
structure ChannelInfoR where
  status : List Char
  message : List Char
  name : List Char
  subscriberCount : List Char
  description : List Char
  videoCount : List Char
deriving DecidableEq, Repr

/-- Result dict of `fetch_video_details` (extractor lines 473-520).  Note
it has no `language` or `view_count` keys — the service's
`details.get("language", "")` / `details.get("view_count", 0)` at lines
176-177 always produce the defaults. -/
structure DetailsR where
  durationSeconds : Nat
  durationHhmmss : List Char
  datePublished : List Char
deriving DecidableEq, Repr

/-- The collaborators one run consults, per channel id / video id.
`summarise` is `LLMClient.summarise` at its value interface
(title, transcript, channel display name, max words, translate mode);
its call at service lines 193-199 stands inside the `try` of lines
122-277, which has a `finally` but no `except`, so an exception raised
by `summarise` — `Except.error` here, e.g. the `TypeError` that
`summariseModel` proves reachable at `llm_client.py` line 290 —
propagates and aborts the whole run. -/
structure RunOracle where
  info : List Char → ChannelInfoR
  videos : List Char → List VideoOut
  details : List Char → DetailsR
  transcript : List Char → List Char
  audioOk : List Char → Bool
  asrOut : List Char → List Char
  summarise : List Char → List Char → List Char → Nat → List Char →
    Except PyErr LLMResult

/-- One row of `token_details` (lines 219-230). -/
structure TokenDetail where
  canal : List Char
  video : List Char
  videoId : List Char
  modelo : List Char
  tokensEntrada : Nat
  tokensSaida : Nat
  tokensTotais : Nat
  custoEstimado : ℚ

/-- One row of `channel_tokens` (lines 264-272). -/
structure ChannelTok where
  canal : List Char
  tokensEntrada : Nat
  tokensSaida : Nat
  tokensTotais : Nat
deriving DecidableEq, Repr

/-- One element of `enriched_videos` (lines 232-251). -/
structure VideoEntry where
  id : List Char
  title : List Char
  titlePt : List Char
  url : List Char
  published : Option Nat
  publishedRelative : List Char
  duration : List Char
  datePublished : List Char
  transcriptAvailable : Bool
  transcript : List Char
  analysisSource : List Char
  summary : Option LLMResult
  language : List Char
  viewCount : Nat
  hasTranscript : Bool

/-- One element of `channel_payload`: the error dict of lines 132-137
(`status: "error"`, empty video list) or the success dict of lines
253-263. -/
inductive ChannelEntry where
  | failure : List Char → List Char → ChannelEntry
  | success : List Char → ChannelInfoR → List VideoEntry → ChannelEntry

/-- The `status` value stored in a payload entry. -/
def ChannelEntry.status : ChannelEntry → List Char
  | ChannelEntry.failure _ _ => "error".toList
  | ChannelEntry.success _ _ _ => "success".toList

/-- The videos stored in a payload entry. -/
def ChannelEntry.videos : ChannelEntry → List VideoEntry
  | ChannelEntry.failure _ _ => []
  | ChannelEntry.success _ _ vs => vs

/-- The `channel_id` stored in a payload entry. -/
def ChannelEntry.channelId : ChannelEntry → List Char
  | ChannelEntry.failure ch _ => ch
  | ChannelEntry.success ch _ _ => ch

/-- Body of the per-video loop (lines 163-251) for one discovered video:
`Except.ok none` when the video id is falsy (line 171-173, silent skip),
`Except.error` when the unprotected `summarise` call of lines 193-199
raises (no `except` catches it inside the loop), otherwise the enriched
record and its token row.  `language`/`view_count` take
their defaults (see `DetailsR`); `has_transcript` is always `false`
because `YouTubeExtractor` defines no `has_transcript` method and the
`AttributeError` is caught at lines 179-182; `titulo_pt` is always
`None` because `LLMClient` defines no `translate_title` method and the
`AttributeError` is caught at lines 205-211, which also skips the token
increments of lines 208-209. -/
def processVideo (cfg : RunConfig) (o : RunOracle) (channelName : List Char)
    (video : VideoOut) : Except PyErr (Option (VideoEntry × TokenDetail)) :=
  if video.id = [] then Except.ok none
  else
    let details := o.details video.id
    let isFull := lowStr cfg.mode = "full".toList
    let ts :=
      if isFull then
        obterTranscricao cfg.asrEnabled cfg.asrProvider (o.transcript video.id)
          (o.audioOk video.id) (o.asrOut video.id)
      else ([], "modo_simples".toList)
    match (if isFull && !cfg.noLlm && ts.1 ≠ [] then
            Except.map some (o.summarise video.title ts.1 channelName
              cfg.resumoMaxPalavras cfg.translateResults)
          else Except.ok none) with
    | Except.error e => Except.error e
    | Except.ok summary =>
    let promptTokens := match summary with
      | some s => s.prompt_tokens
      | none => 0
    let completionTokens := match summary with
      | some s => s.completion_tokens
      | none => 0
    let detail : TokenDetail :=
      { canal := channelName, video := video.title, videoId := video.id,
        modelo := match summary with
          | some s => s.model
          | none => cfg.llmModel,
        tokensEntrada := promptTokens, tokensSaida := completionTokens,
        tokensTotais := promptTokens + completionTokens,
        custoEstimado := match summary with
          | some s => s.cost
          | none => 0 }
    Except.ok (some
      ({ id := video.id, title := video.title, titlePt := video.title,
         url := video.url, published := video.published,
         publishedRelative := video.publishedRel,
         duration := details.durationHhmmss,
         datePublished := details.datePublished,
         transcriptAvailable := ts.1 ≠ [],
         transcript := if isFull then ts.1 else [],
         analysisSource := ts.2, summary := summary, language := [],
         viewCount := 0, hasTranscript := false }, detail))

/-- The per-channel video loop (lines 163-251) over the discovered list:
videos are processed in order, a falsy-id skip contributes nothing, and
the first video whose `summarise` call raises aborts the loop with that
exception (nothing catches it). -/
def processVideos (cfg : RunConfig) (o : RunOracle) (channelName : List Char) :
    List VideoOut → Except PyErr (List (VideoEntry × TokenDetail))
  | [] => Except.ok []
  | v :: rest =>
    match processVideo cfg o channelName v with
    | Except.error e => Except.error e
    | Except.ok none => processVideos cfg o channelName rest
    | Except.ok (some p) =>
      match processVideos cfg o channelName rest with
      | Except.error e => Except.error e
      | Except.ok ps => Except.ok (p :: ps)

/-- Body of the per-channel loop (lines 123-274) for one channel: an
info-fetch failure records an error entry and contributes nothing else
(the `continue` at line 138 skips the `channel_tokens` row); a success
processes its videos and yields the payload entry, the token rows and
this channel's video/token counts; an exception escaping a video's
`summarise` call propagates. -/
def processChannel (cfg : RunConfig) (o : RunOracle) (ch : List Char) :
    Except PyErr
      (ChannelEntry × List TokenDetail × Option ChannelTok × Nat × Nat × Nat) :=
  let info := o.info ch
  if info.status ≠ "success".toList then
    Except.ok (ChannelEntry.failure ch info.message, [], none, 0, 0, 0)
  else
    let videos := o.videos ch
    let channelName := if info.name = [] then ch else info.name
    match processVideos cfg o channelName videos with
    | Except.error e => Except.error e
    | Except.ok processed =>
      let entries := processed.map Prod.fst
      let details := processed.map Prod.snd
      let pT := (details.map (fun d => d.tokensEntrada)).sum
      let cT := (details.map (fun d => d.tokensSaida)).sum
      Except.ok (ChannelEntry.success ch info entries, details,
        some { canal := channelName, tokensEntrada := pT, tokensSaida := cT,
               tokensTotais := pT + cT },
        entries.length, pT, cT)

/-- The `for index, channel in enumerate(channels, start=1)` loop,
accumulating `channel_payload`, `token_details`, `channel_tokens`,
`total_videos` and the token totals; an uncaught exception from a
channel's body aborts the loop (the `try` of lines 122-277 has a
`finally` but no `except`). -/
def runSteps (cfg : RunConfig) (o : RunOracle) :
    List (List Char) →
    Except PyErr
      (List ChannelEntry × List TokenDetail × List ChannelTok × Nat × Nat × Nat)
  | [] => Except.ok ([], [], [], 0, 0, 0)
  | ch :: rest =>
    match processChannel cfg o ch with
    | Except.error e => Except.error e
    | Except.ok (entry, tds, chTok, nV, pT, cT) =>
      match runSteps cfg o rest with
      | Except.error e => Except.error e
      | Except.ok (es, tds', cts, nV', pT', cT') =>
        Except.ok (entry :: es, tds ++ tds',
          (match chTok with
           | some t => t :: cts
           | none => cts),
          nV + nV', pT + pT', cT + cT')

/-- The slice of `YouTubeExtractionResult` that `run` computes from the
loop state (lines 295-318); the path/timestamp/params fields are file
system metadata and are not modelled. -/
structure RunResult where
  totalVideos : Nat
  totalChannels : Nat
  message : List Char
  tokenDetails : List TokenDetail
  channelTokens : List ChannelTok
  totalPromptTokens : Nat
  totalCompletionTokens : Nat
  channelsData : List ChannelEntry
  successChannels : Nat
  failedChannels : Nat

/-- How `run` can fail to return a result: the `ValueError` of line 82,
or an exception raised by a collaborator inside the loop that nothing
catches (the `try` of lines 122-277 only has a `finally`). -/
inductive RunErr where
  | valueError : List Char → RunErr
  | uncaught : PyErr → RunErr
deriving DecidableEq, Repr

/-- `YouTubeExecutionService.run` (lines 75-318): an empty resolved
channel list raises `ValueError("Nenhum canal informado ou cadastrado.")`
at line 82, before the extractor or any collaborator is touched; an
exception escaping the channel loop propagates out of `run` as
`RunErr.uncaught`; otherwise the loop runs to completion and the
aggregate is built with `success_channels` counting the `"success"`
payload entries and `failed_channels` their complement (lines 298-299). -/
def runModel (cfg : RunConfig) (channels : List (List Char)) (o : RunOracle) :
    Except RunErr RunResult :=
  if channels = [] then
    Except.error (RunErr.valueError ( "Nenhum canal informado ou cadastrado.".toList))
  else
    match runSteps cfg o channels with
    | Except.error e => Except.error (RunErr.uncaught e)
    | Except.ok (entries, tds, cts, nV, pT, cT) =>
      let successChannels := entries.countP (fun e => e.status = "success".toList)
      Except.ok
        { totalVideos := nV, totalChannels := entries.length,
          message :=
            if entries.isEmpty then "Nenhum resultado gerado".toList
            else "Extração concluída com sucesso".toList,
          tokenDetails := tds, channelTokens := cts,
          totalPromptTokens := pT, totalCompletionTokens := cT,
          channelsData := entries, successChannels := successChannels,
          failedChannels := entries.length - successChannels }

/-! ## Reference definitions and concrete scenarios for the claims -/

/-- First pattern of the `pats` table whose literal occurs (after optional
whitespace) at the first digit run — used to state `searchUnits` on inputs
of the shape "digits ++ unit text" (see `searchUnits_digits`). -/
def firstUnitMatch (tl : List Char) : Option Nat :=
  (relUnits.find? (fun e => e.1.any (fun a => startsWithL a (tl.dropWhile wsChar)))).map
    (fun e => e.2)

/-- The "n <unit> ago" suffixes of claim C8, one per supported unit word in
each of the two languages, with the unit duration in seconds. -/
def unitCases : List (List Char × Nat) :=
  [ ( " minutes ago".toList, 60), ( " minutos atrás".toList, 60),
    ( " hours ago".toList, 3600), ( " horas atrás".toList, 3600),
    ( " days ago".toList, 86400), ( " dias atrás".toList, 86400),
    ( " weeks ago".toList, 604800), ( " semanas atrás".toList, 604800),
    ( " months ago".toList, 2592000), ( " meses atrás".toList, 2592000),
    ( " years ago".toList, 31536000), ( " anos atrás".toList, 31536000) ]

/-- The four heuristic-summary components claim C7 talks about. -/
structure HeurRef where
  resumo : List Char
  umaFrase : List Char
  keywords : List (List Char)
  topicos : List Char

/-- Reference heuristic, following the words of claim C7 / spec §4.5
literally: the narrative summary is the first `maxWords` words of the
transcript with bracketed annotation tokens filtered out, the one-line
summary the text up to the first period, the keywords up to 12 sorted,
de-duplicated, lower-cased, punctuation-stripped words longer than 4
characters from the first 200 words, and the outline a bulleted list of
the top 8 keywords. -/
def refHeuristicSpec (transcript : List Char) (maxPalavras : Nat) : HeurRef :=
  let words := (splitWs transcript).filter (fun w => !bracketTok w)
  let resumo := joinSep [ ' ' ] (words.take maxPalavras)
  let umaFrase := resumo.takeWhile (fun c => c ≠ '.')
  let kws := sortedSet (((words.take 200).filter (fun w => 4 < w.length)).map
    (fun w => lowStr (stripPunc w)))
  { resumo := resumo, umaFrase := umaFrase, keywords := kws.take 12,
    topicos := joinSep [ '\n' ] ((kws.take 8).map (fun t => '-' :: ' ' :: t)) }

/-- Reference heuristic as amended by claim C7's correction: when every
word is a bracketed token the filter is skipped, the narrative summary
keeps `max(1, min(wordCount, maxWords))` words, and the one-line summary
is capped at 280 characters. -/
def refHeuristicAmended (transcript : List Char) (maxPalavras : Nat) : HeurRef :=
  let words0 := splitWs transcript
  let filteredWords := words0.filter (fun w => !bracketTok w)
  let words := if filteredWords = [] then words0 else filteredWords
  let resumo := joinSep [ ' ' ] (words.take (max 1 (min words.length maxPalavras)))
  let umaFrase := if resumo = [] then [] else (resumo.takeWhile (fun c => c ≠ '.')).take 280
  let kws := sortedSet (((words.take 200).filter (fun w => 4 < w.length)).map
    (fun w => lowStr (stripPunc w)))
  { resumo := resumo, umaFrase := umaFrase, keywords := kws.take 12,
    topicos := joinSep [ '\n' ] ((kws.take 8).map (fun t => '-' :: ' ' :: t)) }

/-- One plain (non-live, non-upcoming) video renderer with the given id,
title and relative-time text. -/
def plainVr (vid title rel : List Char) : VideoRenderer :=
  { videoId := some vid, badgeLabels := [], upcomingEvent := false,
    title := title, publishedTimeText := rel }

/-- Claim C1's concrete stream: five videos aged 1, 2, 3, 10 and 4
days. -/
def c1Contents : List ContentItem :=
  [ ContentItem.video (plainVr ( "v1".toList) ( "t1".toList) ( "1 day ago".toList)),
    ContentItem.video (plainVr ( "v2".toList) ( "t2".toList) ( "2 days ago".toList)),
    ContentItem.video (plainVr ( "v3".toList) ( "t3".toList) ( "3 days ago".toList)),
    ContentItem.video (plainVr ( "v4".toList) ( "t4".toList) ( "10 days ago".toList)),
    ContentItem.video (plainVr ( "v5".toList) ( "t5".toList) ( "4 days ago".toList)) ]

/-- The expected output for `c1Contents` under `maxAgeDays = 5`: exactly
the first three videos. -/
def c1Expected : List VideoOut :=
  [ { id := "v1".toList, title := "t1".toList,
      url := "https://www.youtube.com/watch?v=v1".toList,
      published := some 86400, publishedRel := "1 day ago".toList },
    { id := "v2".toList, title := "t2".toList,
      url := "https://www.youtube.com/watch?v=v2".toList,
      published := some 172800, publishedRel := "2 days ago".toList },
    { id := "v3".toList, title := "t3".toList,
      url := "https://www.youtube.com/watch?v=v3".toList,
      published := some 259200, publishedRel := "3 days ago".toList } ]

/-- A reply whose JSON is a valid object but whose `palavras_chave` is
`null` — `list(None)` raises `TypeError` in the builder. -/
def c2Json : List Char := "\x7b\"palavras_chave\": null\x7d".toList

/-- Claim C2's provider stub with the `null`-keywords reply at limit
1500: `finish_reason = "length"` for every limit of at least 2500, a
valid JSON object at 1500. -/
def c2Req : ReqKind → Except Unit LLMReply := fun k =>
  match k with
  | ReqKind.summary l =>
    if 2500 ≤ l then Except.ok ⟨ "x".toList, 11, 7, some lengthLit⟩
    else if l = 1500 then Except.ok ⟨c2Json, 13, 9, some ( "stop".toList)⟩
    else Except.ok ⟨ [], 0, 0, none⟩
  | _ => Except.error ()

/-- A well-formed size-1500 reply for the amended claim C2. -/
def c2JsonOk : List Char := "\x7b\"resumo_do_video\": \"ok\"\x7d".toList

/-- Claim C2's provider stub with a well-typed reply at limit 1500. -/
def c2ReqOk : ReqKind → Except Unit LLMReply := fun k =>
  match k with
  | ReqKind.summary l =>
    if 2500 ≤ l then Except.ok ⟨ "x".toList, 11, 7, some lengthLit⟩
    else if l = 1500 then Except.ok ⟨c2JsonOk, 13, 9, some ( "stop".toList)⟩
    else Except.ok ⟨ [], 0, 0, none⟩
  | _ => Except.error ()

/-- Transcript oracle whose listing step fails access-blocked. -/
def wOracleBlocked : TranscriptOracle :=
  { listing := ListingRes.blocked, fetchNative := fun _ => FetchRes.err,
    translatePt := fun _ => TransRes.err,
    fetchTranslated := fun _ => FetchRes.err,
    ytdlpText := "legacy caption text".toList }

/-- Transcript oracle with exactly one auto-generated English track. -/
def wOracleEn : TranscriptOracle :=
  { listing := ListingRes.ok [ { language_code := "en".toList, is_generated := true } ],
    fetchNative := fun _ => FetchRes.text ( "auto generated english text".toList),
    translatePt := fun _ => TransRes.err,
    fetchTranslated := fun _ => FetchRes.err, ytdlpText := [] }

/-- Run oracle for the orchestrator witnesses: one channel resolves, the
other fails its info fetch. -/
def wRunOracle : RunOracle :=
  { info := fun ch =>
      if ch = "okchan".toList then
        { status := "success".toList, message := [], name := "Canal OK".toList,
          subscriberCount := "10".toList, description := [], videoCount := "3".toList }
      else
        { status := "error".toList, message := "Falha ao acessar".toList,
          name := [], subscriberCount := [], description := [], videoCount := [] },
    videos := fun _ =>
      [ { id := "vid1".toList, title := "T1".toList, url := "u1".toList,
          published := none, publishedRel := [] } ],
    details := fun _ => { durationSeconds := 0, durationHhmmss := [], datePublished := [] },
    transcript := fun _ => "some transcript words".toList,
    audioOk := fun _ => false, asrOut := fun _ => [],
    summarise := fun _ _ _ _ _ => Except.ok (emptyLLMResult ( "m".toList)) }

/-- Run oracle identical to `wRunOracle` except that `summarise` is the
modelled `LLMClient.summarise` itself, run against claim C2's
`null`-keywords provider stub — the call raises the `TypeError` of
`llm_client.py` line 290. -/
def wRunOracleRaise : RunOracle :=
  { wRunOracle with
    summarise := fun title transcript channel maxP mode =>
      Except.map Prod.fst
        (summariseModel true ( "m".toList) title transcript channel maxP mode
          c2Req) }

/-- Run configuration for the orchestrator witnesses. -/
def wRunCfg : RunConfig :=
  { days := some 5, maxVideos := none, mode := "full".toList, noLlm := false,
    asrEnabled := false, asrProvider := "openai".toList,
    translateResults := "none".toList, resumoMaxPalavras := 50,
    llmModel := "m".toList }

/-! ## General lemmas about the string primitives -/

theorem startsWithL_iff (p s : List Char) :
    startsWithL p s = true ↔ ∃ t, s = p ++ t := by
  induction p generalizing s with
  | nil => simp [startsWithL]
  | cons a ps ih =>
    cases s with
    | nil => simp [startsWithL]
    | cons c cs =>
      simp only [startsWithL, Bool.and_eq_true, decide_eq_true_eq, ih]
      constructor
      · rintro ⟨rfl, t, rfl⟩
        exact ⟨t, rfl⟩
      · rintro ⟨t, h⟩
        injection h with h1 h2
        exact ⟨h1.symm, t, h2⟩

theorem hasSub_nil_pat (s : List Char) : hasSub [] s = true := by
  cases s <;> simp [hasSub, startsWithL]

theorem hasSub_iff (p s : List Char) :
    hasSub p s = true ↔ ∃ x y, s = x ++ p ++ y := by
  induction s with
  | nil =>
    cases p with
    | nil => simp [hasSub, startsWithL]
    | cons a ps => simp [hasSub, startsWithL]
  | cons c cs ih =>
    simp only [hasSub, Bool.or_eq_true, startsWithL_iff, ih]
    constructor
    · rintro (⟨t, ht⟩ | ⟨x, y, hxy⟩)
      · exact ⟨[], t, by simpa using ht⟩
      · exact ⟨c :: x, y, by simp [hxy]⟩
    · rintro ⟨x, y, h⟩
      cases x with
      | nil =>
        left
        exact ⟨y, by simpa using h⟩
      | cons a xs =>
        right
        injection h with h1 h2
        exact ⟨xs, y, h2⟩

theorem hasSub_of_infix (k x y s : List Char) (h : s = x ++ k ++ y) :
    hasSub k s = true :=
  (hasSub_iff k s).mpr ⟨x, y, h⟩

theorem hasSub_missing {p s : List Char} {c : Char} (hc : c ∈ p) (hs : c ∉ s) :
    hasSub p s = false := by
  cases h : hasSub p s with
  | false => rfl
  | true =>
    obtain ⟨x, y, rfl⟩ := (hasSub_iff p s).mp h
    exact (hs (by simp [hc])).elim

theorem hasSub_rev_of {k s : List Char} (h : hasSub k s = true) :
    hasSub k.reverse s.reverse = true := by
  obtain ⟨x, y, rfl⟩ := (hasSub_iff k s).mp h
  exact hasSub_of_infix _ y.reverse x.reverse _ (by simp)

theorem digit_not_ws {c : Char} (h : digitChar c = true) : wsChar c = false := by
  simp only [digitChar, Bool.and_eq_true, decide_eq_true_eq] at h
  simp only [wsChar, Bool.or_eq_false_iff, Bool.and_eq_false_iff,
    decide_eq_false_iff_not]
  omega

theorem ws_lowChar {c : Char} (h : wsChar c = true) : lowChar c = c := by
  simp only [wsChar, Bool.or_eq_true, Bool.and_eq_true, decide_eq_true_eq] at h
  unfold lowChar
  rw [if_neg]
  simp only [Bool.and_eq_true, decide_eq_true_eq, not_and]
  omega

theorem digit_lowChar {c : Char} (h : digitChar c = true) : lowChar c = c := by
  simp only [digitChar, Bool.and_eq_true, decide_eq_true_eq] at h
  unfold lowChar
  rw [if_neg]
  simp only [Bool.and_eq_true, decide_eq_true_eq, not_and]
  omega

theorem digit_ne {c h : Char} (hc : digitChar c = true) (hh : digitChar h = false) :
    h ≠ c := by
  intro he
  rw [he, hc] at hh
  cases hh

theorem map_lowChar_id : ∀ {l : List Char}, (∀ c ∈ l, lowChar c = c) →
    lowStr l = l := by
  intro l
  induction l with
  | nil => intro _; rfl
  | cons c cs ih =>
    intro h
    have htail := ih (fun d hd => h d (by simp [hd]))
    unfold lowStr at htail ⊢
    simp only [List.map_cons, htail, h c (by simp)]

theorem dropWhile_neg_all {p : Char → Bool} {l : List Char}
    (h : ∀ c ∈ l, p c = false) : l.dropWhile p = l := by
  cases l with
  | nil => rfl
  | cons c cs => simp [List.dropWhile_cons, h c (by simp)]

theorem takeWhile_neg_all {p : Char → Bool} {l : List Char}
    (h : ∀ c ∈ l, p c = false) : l.takeWhile p = [] := by
  cases l with
  | nil => rfl
  | cons c cs => simp [List.takeWhile_cons, h c (by simp)]

theorem trimBoth_decomp (s : List Char) :
    ∃ a b, s = a ++ trimBoth s ++ b ∧ (∀ c ∈ a, wsChar c = true) ∧
      (∀ c ∈ b, wsChar c = true) := by
  have h1 : s = trimR s ++ (s.reverse.takeWhile wsChar).reverse := by
    unfold trimR
    conv_lhs =>
      rw [← s.reverse_reverse,
        ← List.takeWhile_append_dropWhile (p := wsChar) (l := s.reverse),
        List.reverse_append]
  have h2 : trimR s = (trimR s).takeWhile wsChar ++ trimBoth s := by
    unfold trimBoth trimL
    rw [List.takeWhile_append_dropWhile]
  refine ⟨(trimR s).takeWhile wsChar, (s.reverse.takeWhile wsChar).reverse, ?_, ?_, ?_⟩
  · conv_lhs => rw [h1]
    rw [← h2]
  · intro c hc
    exact List.mem_takeWhile_imp hc
  · intro c hc
    rw [List.mem_reverse] at hc
    exact List.mem_takeWhile_imp hc

theorem trimR_append {l₁ l₂ : List Char} (h : trimR l₂ ≠ []) :
    trimR (l₁ ++ l₂) = l₁ ++ trimR l₂ := by
  have hne : ¬(l₂.reverse.dropWhile wsChar).isEmpty = true := by
    intro hempty
    apply h
    unfold trimR
    rw [List.isEmpty_iff] at hempty
    rw [hempty]
    rfl
  unfold trimR
  rw [List.reverse_append, List.dropWhile_append, if_neg hne, List.reverse_append,
    List.reverse_reverse]

theorem trimR_self {l : List Char} (h : l.reverse.dropWhile wsChar = l.reverse) :
    trimR l = l := by
  unfold trimR
  rw [h, List.reverse_reverse]

theorem trimL_digits {ds x : List Char} (hne : ds ≠ [])
    (hds : ∀ c ∈ ds, digitChar c = true) : trimL (ds ++ x) = ds ++ x := by
  cases ds with
  | nil => exact absurd rfl hne
  | cons c cs =>
    unfold trimL
    simp [List.dropWhile_cons, digit_not_ws (hds c (by simp))]

theorem infix_strip_left {k : List Char} (hhead : k.head?.all (fun c => !wsChar c) = true) :
    ∀ a y, (∀ c ∈ a, wsChar c = true) → hasSub k (a ++ y) = true →
      hasSub k y = true := by
  intro a
  induction a with
  | nil => intro y _ h; simpa using h
  | cons c a' ih =>
    intro y hws h
    cases k with
    | nil => exact hasSub_nil_pat y
    | cons d ds =>
      simp only [List.cons_append, hasSub, Bool.or_eq_true] at h
      rcases h with h | h
      · exfalso
        simp only [startsWithL, Bool.and_eq_true, decide_eq_true_eq] at h
        have hd : wsChar d = false := by simpa using hhead
        rw [h.1, hws c (by simp)] at hd
        cases hd
      · exact ih y (fun e he => hws e (by simp [he])) h

theorem infix_strip_ws {k X : List Char} (a b : List Char)
    (hwa : ∀ c ∈ a, wsChar c = true) (hwb : ∀ c ∈ b, wsChar c = true)
    (hhead : k.head?.all (fun c => !wsChar c) = true)
    (hlast : k.getLast?.all (fun c => !wsChar c) = true)
    (h : hasSub k (a ++ X ++ b) = true) : hasSub k X = true := by
  have h1 : hasSub k (X ++ b) = true := by
    refine infix_strip_left hhead a (X ++ b) hwa ?_
    rw [← List.append_assoc]
    exact h
  have h2 : hasSub k.reverse (b.reverse ++ X.reverse) = true := by
    have := hasSub_rev_of h1
    rwa [List.reverse_append] at this
  have h3 : hasSub k.reverse X.reverse = true := by
    refine infix_strip_left ?_ b.reverse X.reverse ?_ h2
    · rwa [List.head?_reverse]
    · intro c hc
      exact hwb c (List.mem_reverse.mp hc)
  have := hasSub_rev_of h3
  simpa using this

/-! ## Pattern matching lemmas for the relative-time parser -/

theorem searchNum_no_digits (alts : List (List Char)) {tl : List Char}
    (hnd : ∀ c ∈ tl, digitChar c = false) : searchNum alts tl = none := by
  induction tl with
  | nil => rfl
  | cons c cs ih =>
    unfold searchNum
    rw [if_neg (by simp [hnd c (by simp)])]
    exact ih (fun d hd => hnd d (by simp [hd]))

theorem searchNum_digits (alts : List (List Char)) :
    ∀ ds tl, ds ≠ [] → (∀ c ∈ ds, digitChar c = true) →
    (∀ c ∈ tl, digitChar c = false) →
    searchNum alts (ds ++ tl) =
      if alts.any (fun a => startsWithL a (tl.dropWhile wsChar)) then
        some (digitsVal ds)
      else none := by
  intro ds
  induction ds with
  | nil => intro tl h; exact absurd rfl h
  | cons c ds' ih =>
    intro tl _ hds hnd
    have hc : digitChar c = true := hds c (by simp)
    have hds' : ∀ d ∈ ds', digitChar d = true := fun d hd => hds d (by simp [hd])
    have hdropAll : (ds' ++ tl).dropWhile digitChar = tl := by
      rw [List.dropWhile_append]
      rw [dropWhile_neg_all (p := digitChar) hnd]
      by_cases he : ds'.dropWhile digitChar = []
      · simp [he]
      · exfalso
        apply he
        rw [List.dropWhile_eq_nil_iff]
        intro d hd
        simp [hds' d hd]
    have htakeAll : (ds' ++ tl).takeWhile digitChar = ds' := by
      rw [List.takeWhile_append_of_pos (fun d hd => hds' d hd)]
      rw [takeWhile_neg_all (p := digitChar) hnd, List.append_nil]
    show searchNum alts (c :: (ds' ++ tl)) = _
    unfold searchNum
    rw [if_pos hc]
    simp only [List.dropWhile_cons, hc, if_true, List.takeWhile_cons, hdropAll, htakeAll]
    by_cases hcond : alts.any (fun a => startsWithL a (tl.dropWhile wsChar)) = true
    · rw [if_pos hcond, if_pos hcond]
    · rw [if_neg hcond, if_neg hcond]
      cases ds' with
      | nil => exact searchNum_no_digits alts hnd
      | cons e es =>
        rw [ih tl (by simp) hds' hnd, if_neg hcond]

theorem searchUnits_digits :
    ∀ (table : List (List (List Char) × Nat)) (ds tl : List Char), ds ≠ [] →
    (∀ c ∈ ds, digitChar c = true) → (∀ c ∈ tl, digitChar c = false) →
    searchUnits table (ds ++ tl) =
      match table.find? (fun e => e.1.any (fun a => startsWithL a (tl.dropWhile wsChar))) with
      | some e => some (digitsVal ds * e.2)
      | none => none := by
  intro table
  induction table with
  | nil => intro ds tl _ _ _; rfl
  | cons entry rest ih =>
    intro ds tl hne hds hnd
    obtain ⟨alts, secs⟩ := entry
    show (match searchNum alts (ds ++ tl) with
      | some n => some (n * secs)
      | none => searchUnits rest (ds ++ tl)) = _
    rw [searchNum_digits alts ds tl hne hds hnd]
    by_cases hcond : alts.any (fun a => startsWithL a (tl.dropWhile wsChar)) = true
    · rw [if_pos hcond, List.find?_cons_of_pos _ (by simpa using hcond)]
    · rw [if_neg hcond, List.find?_cons_of_neg _ (by simpa using hcond)]
      exact ih ds tl hne hds hnd

theorem startsWithL_head_ne {h c : Char} {pt cs : List Char} (hne : h ≠ c) :
    startsWithL (h :: pt) (c :: cs) = false := by
  simp [startsWithL, hne]

theorem replAll_cons_notfirst {h : Char} {pt rep : List Char} {c : Char}
    {cs : List Char} (hne : h ≠ c) :
    replAll (c :: cs) (h :: pt) rep = c :: replAll cs (h :: pt) rep := by
  unfold replAll
  rw [if_neg (by simp), if_neg (by simp)]
  show replAllF (cs.length + 1) (c :: cs) (h :: pt) rep = _
  conv_lhs => rw [replAllF]
  rw [if_neg (by simp [startsWithL_head_ne hne])]

theorem replAll_append_digits {pat rep : List Char} {h : Char} {pt : List Char}
    (hpat : pat = h :: pt) (hh : digitChar h = false) :
    ∀ ds x, (∀ c ∈ ds, digitChar c = true) →
      replAll (ds ++ x) pat rep = ds ++ replAll x pat rep := by
  intro ds
  induction ds with
  | nil => intro x _; rfl
  | cons c ds' ih =>
    intro x hds
    subst hpat
    show replAll (c :: (ds' ++ x)) (h :: pt) rep = _
    rw [replAll_cons_notfirst (digit_ne (hds c (by simp)) hh)]
    rw [ih x (fun d hd => hds d (by simp [hd]))]
    rfl

theorem applySubs_digits {ds x : List Char} (hds : ∀ c ∈ ds, digitChar c = true) :
    applySubs (ds ++ x) = ds ++ applySubs x := by
  simp only [applySubs, relSubs, List.foldl_cons, List.foldl_nil]
  rw [@replAll_append_digits ( "atrás".toList) [] 'a' ( "trás".toList)
    (by decide) (by decide) ds x hds]
  rw [@replAll_append_digits ( "ago".toList) [] 'a' ( "go".toList)
    (by decide) (by decide) ds _ hds]
  rw [@replAll_append_digits ( "há".toList) [] 'h' ( "á".toList)
    (by decide) (by decide) ds _ hds]
  rw [@replAll_append_digits ( "streamed".toList) [] 's' ( "treamed".toList)
    (by decide) (by decide) ds _ hds]
  rw [@replAll_append_digits ( "transmitido".toList) [] 't' ( "ransmitido".toList)
    (by decide) (by decide) ds _ hds]

/-- Master lemma for claim C8's unit cases: for a non-empty digit run `ds`
and a concrete unit suffix `rest` (lower-case, no trailing whitespace, no
live/upcoming marker reachable, no digits after substitution), parsing
`ds ++ rest` yields the captured value times the first matching unit's
duration.  All hypotheses about `rest` are decidable and discharged by
`decide` at each instantiation. -/
theorem parseRelTime_digits (ds rest rest' tl : List Char) (secs : Nat)
    (hne : ds ≠ []) (hds : ∀ c ∈ ds, digitChar c = true)
    (hrest : rest ≠ [])
    (hlow : ∀ c ∈ rest, lowChar c = c)
    (htrimR : rest.reverse.dropWhile wsChar = rest.reverse)
    (hmiss : ∀ k ∈ relMarkers, ∃ c, c ∈ k ∧ digitChar c = false ∧ c ∉ rest)
    (hsubs : applySubs rest = rest')
    (htl : trimR rest' = tl) (htlne : tl ≠ [])
    (hnd : ∀ c ∈ tl, digitChar c = false)
    (hfm : firstUnitMatch tl = some secs) :
    parseRelTime (ds ++ rest) = some (digitsVal ds * secs) := by
  have hsne : ds ++ rest ≠ [] := by
    cases ds with
    | nil => exact absurd rfl hne
    | cons c cs => simp
  have htrim : trimBoth (ds ++ rest) = ds ++ rest := by
    unfold trimBoth
    rw [trimR_append (by rw [trimR_self htrimR]; exact hrest), trimR_self htrimR]
    exact trimL_digits hne hds
  have hlowid : lowStr (ds ++ rest) = ds ++ rest := by
    apply map_lowChar_id
    intro c hc
    rcases List.mem_append.mp hc with hc | hc
    · exact digit_lowChar (hds c hc)
    · exact hlow c hc
  have hmark : relMarkers.any (fun k => hasSub k (ds ++ rest)) = false := by
    rw [List.any_eq_false]
    intro k hk
    obtain ⟨c, hck, hcd, hcr⟩ := hmiss k hk
    have hnotin : c ∉ ds ++ rest := by
      intro hmem
      rcases List.mem_append.mp hmem with hm | hm
      · rw [hds c hm] at hcd; cases hcd
      · exact hcr hm
    simp [hasSub_missing hck hnotin]
  unfold parseRelTime
  rw [if_neg hsne, htrim, hlowid, if_neg (by simp [hmark])]
  rw [applySubs_digits hds, hsubs]
  have htrim2 : trimBoth (ds ++ rest') = ds ++ tl := by
    unfold trimBoth
    rw [trimR_append (by rw [htl]; exact htlne), htl]
    exact trimL_digits hne hds
  rw [htrim2]
  rw [searchUnits_digits relUnits ds tl hne hds hnd]
  unfold firstUnitMatch at hfm
  cases hfind : relUnits.find?
      (fun e => e.1.any (fun a => startsWithL a (tl.dropWhile wsChar))) with
  | none => rw [hfind] at hfm; cases hfm
  | some e =>
    rw [hfind] at hfm
    have he : e.2 = secs := by
      simpa using hfm
    simp [he]

/-- C8: for every positive integer `n` (given as its non-empty decimal
digit string `ds`) and every supported unit word in both supported
languages, parsing the relative-time string "n <unit> ago" (or its
Portuguese "n <unit> atrás" equivalent) yields `now` minus `n` times the
unit's duration — exactly, with months counted as 30 days and years as
365 days (the 1-second tolerance of the claim covers the double
`utcnow()` call of the original, which the model samples once); every
string containing a live or upcoming marker yields `null`; and every
string matching no numeric+unit pattern yields `null`. -/
theorem c8_relative_time_parse :
    (∀ ds : List Char, ds ≠ [] → (∀ c ∈ ds, digitChar c = true) →
      0 < digitsVal ds →
      ∀ e ∈ unitCases, parseRelTime (ds ++ e.1) = some (digitsVal ds * e.2))
    ∧ (∀ s : List Char, (∃ k ∈ relMarkers, hasSub k (lowStr s) = true) →
        parseRelTime s = none)
    ∧ (∀ s : List Char, searchUnits relUnits (relProcessed s) = none →
        parseRelTime s = none) := by
  refine ⟨?_, ?_, ?_⟩
  · intro ds h1 h2 _ e he
    simp only [unitCases, List.mem_cons, List.not_mem_nil, or_false] at he
    rcases he with rfl | rfl | rfl | rfl | rfl | rfl | rfl | rfl | rfl | rfl | rfl | rfl
    · exact parseRelTime_digits ds _ ( " minutes ".toList) ( " minutes".toList) 60 h1 h2
        (by decide) (by decide) (by decide) (by decide) (by decide) (by decide)
        (by decide) (by decide) (by decide)
    · exact parseRelTime_digits ds _ ( " minutos ".toList) ( " minutos".toList) 60 h1 h2
        (by decide) (by decide) (by decide) (by decide) (by decide) (by decide)
        (by decide) (by decide) (by decide)
    · exact parseRelTime_digits ds _ ( " hours ".toList) ( " hours".toList) 3600 h1 h2
        (by decide) (by decide) (by decide) (by decide) (by decide) (by decide)
        (by decide) (by decide) (by decide)
    · exact parseRelTime_digits ds _ ( " horas ".toList) ( " horas".toList) 3600 h1 h2
        (by decide) (by decide) (by decide) (by decide) (by decide) (by decide)
        (by decide) (by decide) (by decide)
    · exact parseRelTime_digits ds _ ( " days ".toList) ( " days".toList) 86400 h1 h2
        (by decide) (by decide) (by decide) (by decide) (by decide) (by decide)
        (by decide) (by decide) (by decide)
    · exact parseRelTime_digits ds _ ( " dias ".toList) ( " dias".toList) 86400 h1 h2
        (by decide) (by decide) (by decide) (by decide) (by decide) (by decide)
        (by decide) (by decide) (by decide)
    · exact parseRelTime_digits ds _ ( " weeks ".toList) ( " weeks".toList) 604800 h1 h2
        (by decide) (by decide) (by decide) (by decide) (by decide) (by decide)
        (by decide) (by decide) (by decide)
    · exact parseRelTime_digits ds _ ( " semanas ".toList) ( " semanas".toList) 604800 h1 h2
        (by decide) (by decide) (by decide) (by decide) (by decide) (by decide)
        (by decide) (by decide) (by decide)
    · exact parseRelTime_digits ds _ ( " months ".toList) ( " months".toList) 2592000 h1 h2
        (by decide) (by decide) (by decide) (by decide) (by decide) (by decide)
        (by decide) (by decide) (by decide)
    · exact parseRelTime_digits ds _ ( " meses ".toList) ( " meses".toList) 2592000 h1 h2
        (by decide) (by decide) (by decide) (by decide) (by decide) (by decide)
        (by decide) (by decide) (by decide)
    · exact parseRelTime_digits ds _ ( " years ".toList) ( " years".toList) 31536000 h1 h2
        (by decide) (by decide) (by decide) (by decide) (by decide) (by decide)
        (by decide) (by decide) (by decide)
    · exact parseRelTime_digits ds _ ( " anos ".toList) ( " anos".toList) 31536000 h1 h2
        (by decide) (by decide) (by decide) (by decide) (by decide) (by decide)
        (by decide) (by decide) (by decide)
  · rintro s ⟨k, hk, hsub⟩
    by_cases hs : s = []
    · subst hs
      rfl
    · obtain ⟨a, b, hdec, hwa, hwb⟩ := trimBoth_decomp s
      have hlowa : lowStr a = a := map_lowChar_id (fun c hc => ws_lowChar (hwa c hc))
      have hlowb : lowStr b = b := map_lowChar_id (fun c hc => ws_lowChar (hwb c hc))
      have hsplit : lowStr s = a ++ lowStr (trimBoth s) ++ b := by
        conv_lhs => rw [hdec]
        unfold lowStr at hlowa hlowb ⊢
        rw [List.map_append, List.map_append, hlowa, hlowb]
      rw [hsplit] at hsub
      have hall : ∀ k' ∈ relMarkers, k'.head?.all (fun c => !wsChar c) = true ∧
          k'.getLast?.all (fun c => !wsChar c) = true := by decide
      have hmem : hasSub k (lowStr (trimBoth s)) = true :=
        infix_strip_ws a b hwa hwb (hall k hk).1 (hall k hk).2 hsub
      unfold parseRelTime
      rw [if_neg hs, if_pos (List.any_eq_true.mpr ⟨k, hk, hmem⟩)]
  · intro s hnone
    unfold parseRelTime
    by_cases hs : s = []
    · rw [if_pos hs]
    · rw [if_neg hs]
      by_cases hm : relMarkers.any (fun k => hasSub k (lowStr (trimBoth s))) = true
      · rw [if_pos hm]
      · rw [if_neg hm]
        exact hnone

/-- Witness for C8 at concrete inputs: "3 days ago" parses to 3 days
before now, "ao vivo" (live marker) and "hello world" (no pattern) to
`null`. -/
theorem c8_relative_time_parse_witness :
    parseRelTime ( "3 days ago".toList) = some (digitsVal ( "3".toList) * 86400)
    ∧ parseRelTime ( "ao vivo".toList) = none
    ∧ parseRelTime ( "hello world".toList) = none := by
  refine ⟨?_, ?_, ?_⟩
  · exact c8_relative_time_parse.1 ( "3".toList) (by decide) (by decide) (by decide)
      (( " days ago".toList, 86400)) (by decide)
  · exact c8_relative_time_parse.2.1 ( "ao vivo".toList)
      ⟨ "ao vivo".toList, by decide, by decide⟩
  · exact c8_relative_time_parse.2.2 ( "hello world".toList) (by decide)

/-- C1: with a day-window filter set, a video whose relative-time text
cannot be parsed is skipped and the scan continues with the next item;
the first video whose parsed age exceeds the window stops the entire
scan, and a stopped first-page scan never consults the continuation
endpoint (the result is the same for every pagination oracle); for the
concrete stream with ages `[1, 2, 3, 10, 4]` days and `maxAgeDays = 5`,
exactly the first three videos are returned, again for every pagination
oracle and initial continuation token. -/
theorem c1_age_filter_stop :
    (∀ (d : Nat) (maxV : Option Nat) (vr : VideoRenderer) (vid : List Char)
      (rest : List ContentItem) (acc : List VideoOut),
      vr.videoId = some vid → badgeIsLive vr.badgeLabels = false →
      vr.upcomingEvent = false → parseRelTime vr.publishedTimeText = none →
      scanFirstPage (some d) maxV (ContentItem.video vr :: rest) acc =
        scanFirstPage (some d) maxV rest acc)
    ∧ (∀ (d : Nat) (maxV : Option Nat) (vr : VideoRenderer) (vid : List Char)
      (rest : List ContentItem) (acc : List VideoOut) (secs : Nat),
      vr.videoId = some vid → badgeIsLive vr.badgeLabels = false →
      vr.upcomingEvent = false → parseRelTime vr.publishedTimeText = some secs →
      secs / 86400 > d →
      scanFirstPage (some d) maxV (ContentItem.video vr :: rest) acc = (acc, true))
    ∧ (∀ (maxAge maxV : Option Nat) (contents : List ContentItem)
      (vs : List VideoOut) (token0 : Option (List Char))
      (net : List (Option (List ContentItem))),
      scanFirstPage maxAge maxV contents [] = (vs, true) →
      extractVideosTab maxAge maxV contents token0 net = vs)
    ∧ (∀ (token0 : Option (List Char)) (net : List (Option (List ContentItem))),
      extractVideosTab (some 5) none c1Contents token0 net = c1Expected) := by
  refine ⟨?_, ?_, ?_, ?_⟩
  · intro d maxV vr vid rest acc hvid hlive hup hparse
    have hpush : pushVideo (some d) maxV vr acc = (acc, true) := by
      simp [pushVideo, hvid, hlive, hup, hparse]
    simp only [scanFirstPage]
    rw [hpush]
  · intro d maxV vr vid rest acc secs hvid hlive hup hparse hold
    have hpush : pushVideo (some d) maxV vr acc = (acc, false) := by
      simp [pushVideo, hvid, hlive, hup, hparse, hold]
    simp only [scanFirstPage]
    rw [hpush]
  · intro maxAge maxV contents vs token0 net hscan
    unfold extractVideosTab
    rw [hscan]
  · intro token0 net
    have hscan : scanFirstPage (some 5) none c1Contents [] = (c1Expected, true) := by
      decide
    unfold extractVideosTab
    rw [hscan]

/-- Witness for C1: a concrete unparsable-age skip, a concrete over-age
stop, and the `[1, 2, 3, 10, 4]`-day scenario with a pagination oracle
that would otherwise serve two more videos. -/
theorem c1_age_filter_stop_witness :
    scanFirstPage (some 5) none
        [ContentItem.video (plainVr ( "vx".toList) ( "tx".toList) ( "soon".toList))] [] =
      scanFirstPage (some 5) none [] []
    ∧ scanFirstPage (some 5) none
        [ContentItem.video (plainVr ( "vy".toList) ( "ty".toList) ( "10 days ago".toList))] [] =
      ([], true)
    ∧ extractVideosTab (some 5) none c1Contents (some ( "tok".toList))
        [some [ContentItem.video (plainVr ( "v6".toList) ( "t6".toList) ( "4 days ago".toList))]] =
      c1Expected := by
  refine ⟨?_, ?_, ?_⟩
  · exact c1_age_filter_stop.1 5 none _ ( "vx".toList) [] [] rfl (by decide) rfl
      (by decide)
  · exact c1_age_filter_stop.2.1 5 none _ ( "vy".toList) [] [] 864000 rfl (by decide)
      rfl (by decide) (by decide)
  · exact c1_age_filter_stop.2.2.2 (some ( "tok".toList)) _

/-- C9: a blank transcript returns the all-empty result (all string
fields empty, empty keyword list, zero token counts — see
`emptyLLMResult`) with no provider request; a non-empty transcript with
no active provider returns the heuristic summary with no provider
request. -/
theorem c9_summarise_preconditions :
    (∀ (active : Bool) (modelName title transcript channel : List Char)
      (maxP : Nat) (tm : List Char) (req : ReqKind → Except Unit LLMReply),
      trimBoth transcript = [] →
      summariseModel active modelName title transcript channel maxP tm req =
        Except.ok (emptyLLMResult modelName, []))
    ∧ (∀ (modelName title transcript channel : List Char) (maxP : Nat)
      (tm : List Char) (req : ReqKind → Except Unit LLMReply),
      trimBoth transcript ≠ [] →
      summariseModel false modelName title transcript channel maxP tm req =
        Except.ok (heuristicSummary modelName title (trimBoth transcript) maxP, [])) := by
  constructor
  · intro active modelName title transcript channel maxP tm req h
    simp [summariseModel, h]
  · intro modelName title transcript channel maxP tm req h
    simp [summariseModel, h]

/-- Witness for C9: a whitespace-only transcript and an inactive client,
each with a provider stub that would fail any request. -/
theorem c9_summarise_preconditions_witness :
    summariseModel true ( "m".toList) ( "t".toList) ( "  ".toList) ( "c".toList) 5
        ( "original".toList) (fun _ => Except.error ()) =
      Except.ok (emptyLLMResult ( "m".toList), [])
    ∧ summariseModel false ( "m".toList) ( "t".toList) ( "hello".toList) ( "c".toList) 5
        ( "original".toList) (fun _ => Except.error ()) =
      Except.ok (heuristicSummary ( "m".toList) ( "t".toList) ( "hello".toList) 5, []) := by
  constructor
  · exact c9_summarise_preconditions.1 true ( "m".toList) ( "t".toList) ( "  ".toList)
      ( "c".toList) 5 ( "original".toList) (fun _ => Except.error ()) (by decide)
  · exact c9_summarise_preconditions.2 ( "m".toList) ( "t".toList) ( "hello".toList)
      ( "c".toList) 5 ( "original".toList) (fun _ => Except.error ()) (by decide)

theorem resultFromFields_cost {modelName : List Char} {fuel : Nat}
    {fields : List (List Char × JVal)} {p c : Nat} {r : LLMResult}
    (h : resultFromFields modelName fuel fields p c = Except.ok r) : r.cost = 0 := by
  unfold resultFromFields at h
  dsimp only at h
  split at h
  · exact absurd h (by simp)
  · injection h with h'
    rw [← h']

theorem summariseAttempts_cost {modelName : List Char}
    {req : ReqKind → Except Unit LLMReply} :
    ∀ {limits : List Nat} {trace trace' : List ReqKind} {r : LLMResult},
      summariseAttempts modelName req limits trace = Except.ok (some r, trace') →
      r.cost = 0 := by
  intro limits
  induction limits with
  | nil =>
    intro trace trace' r h
    simp [summariseAttempts] at h
  | cons limit rest ih =>
    intro trace trace' r h
    unfold summariseAttempts at h
    dsimp only at h
    split at h
    · exact ih h
    · split at h
      · exact ih h
      · split at h
        · exact ih h
        · split at h
          · simp at h
          · split at h
            · simp at h
            · split at h
              · split at h
                · exact absurd h (by simp)
                · rename_i hres
                  injection h with h'
                  injection h' with h1 h2
                  injection h1 with h1'
                  rw [← h1']
                  exact resultFromFields_cost hres
              · exact ih h

theorem translateFieldsIndividually_cost {req : ReqKind → Except Unit LLMReply}
    {r r' : LLMResult} {t : List ReqKind}
    (h : translateFieldsIndividually req r = Except.ok (r', t)) : r'.cost = r.cost := by
  unfold translateFieldsIndividually at h
  dsimp only at h
  split at h
  · exact absurd h (by simp)
  · injection h with h'
    injection h' with h1 h2
    rw [← h1]

theorem translateResultFields_cost {req : ReqKind → Except Unit LLMReply}
    {r r' : LLMResult} {t : List ReqKind}
    (h : translateResultFields req r = Except.ok (r', t)) : r'.cost = r.cost := by
  unfold translateResultFields at h
  dsimp only at h
  split at h
  · split at h
    · exact absurd h (by simp)
    · rename_i heq
      injection h with h'
      injection h' with h1 h2
      rw [← h1]
      exact translateFieldsIndividually_cost heq
  · injection h with h'
    injection h' with h1 h2
    rw [← h1]

/-- C6: every result a `summarise` call returns carries an estimated cost
equal to the static per-model price-table lookup for the configured
model applied to its token counts — the table (`MODEL_PRICES`) is empty
because the `_MODEL_PRICES` import fails, so every model is unlisted,
the lookup yields zero, and the `cost = 0.0` the code hardcodes agrees
with it. -/
theorem c6_cost_from_price_table :
    ∀ (active : Bool) (modelName title transcript channel : List Char)
      (maxP : Nat) (tm : List Char) (req : ReqKind → Except Unit LLMReply)
      (result : LLMResult) (trace : List ReqKind),
      summariseModel active modelName title transcript channel maxP tm req =
        Except.ok (result, trace) →
      result.cost = estimateCost modelName result.prompt_tokens result.completion_tokens := by
  intro active modelName title transcript channel maxP tm req result trace h
  have hz : result.cost = 0 := by
    unfold summariseModel at h
    dsimp only at h
    split at h
    · injection h with h'
      injection h' with h1 h2
      rw [← h1]
      rfl
    · split at h
      · injection h with h'
        injection h' with h1 h2
        rw [← h1]
        rfl
      · split at h
        · exact absurd h (by simp)
        · rename_i r0 t0 hattempt
          split at h
          · split at h
            · exact absurd h (by simp)
            · rename_i htrans
              injection h with h'
              injection h' with h1 h2
              rw [← h1, translateResultFields_cost htrans]
              exact summariseAttempts_cost hattempt
          · injection h with h'
            injection h' with h1 h2
            rw [← h1]
            exact summariseAttempts_cost hattempt
        · rename_i t0 hattempt
          split at h
          · split at h
            · exact absurd h (by simp)
            · rename_i htrans
              injection h with h'
              injection h' with h1 h2
              rw [← h1, translateResultFields_cost htrans]
              rfl
          · injection h with h'
            injection h' with h1 h2
            rw [← h1]
            rfl
  rw [hz]
  rfl

/-- Witness for C6 at a concrete call: the empty-transcript result. -/
theorem c6_cost_from_price_table_witness :
    (emptyLLMResult ( "m".toList)).cost =
      estimateCost ( "m".toList) (emptyLLMResult ( "m".toList)).prompt_tokens
        (emptyLLMResult ( "m".toList)).completion_tokens := by
  have h := c6_cost_from_price_table true ( "m".toList) ( "t".toList) ( "  ".toList)
    ( "c".toList) 5 ( "original".toList) (fun _ => Except.error ())
    (emptyLLMResult ( "m".toList)) [] rfl
  exact h

theorem summariseAttempts_step_continue {modelName : List Char}
    {req : ReqKind → Except Unit LLMReply} {limit : Nat} {rest : List Nat}
    {trace : List ReqKind} {r : LLMReply}
    (hreq : req (ReqKind.summary limit) = Except.ok r)
    (hfin : r.finishReason = some lengthLit) (hrest : rest ≠ []) :
    summariseAttempts modelName req (limit :: rest) trace =
      summariseAttempts modelName req rest (trace ++ [ReqKind.summary limit]) := by
  conv_lhs => rw [summariseAttempts]
  rw [hreq]
  dsimp only
  by_cases hc : r.content = []
  · rw [if_pos hc]
  · rw [if_neg hc, if_pos ⟨hfin, hrest⟩]

theorem summariseAttempts_step_found {modelName : List Char}
    {req : ReqKind → Except Unit LLMReply} {limit : Nat} {rest : List Nat}
    {trace : List ReqKind} {r : LLMReply} {fields : List (List Char × JVal)}
    {result : LLMResult}
    (hreq : req (ReqKind.summary limit) = Except.ok r)
    (hfin : r.finishReason ≠ some lengthLit)
    (hjson : parseJsonFragment (normalizeJsonPayload r.content) = some (JVal.obj fields))
    (hres : resultFromFields modelName ((normalizeJsonPayload r.content).length + 1)
      fields r.promptTokens r.completionTokens = Except.ok result) :
    summariseAttempts modelName req (limit :: rest) trace =
      Except.ok (some result, trace ++ [ReqKind.summary limit]) := by
  have hcne : r.content ≠ [] := by
    intro hc
    rw [hc] at hjson
    exact Option.noConfusion hjson
  have hsne : normalizeJsonPayload r.content ≠ [] := by
    intro hs
    rw [hs] at hjson
    exact Option.noConfusion hjson
  conv_lhs => rw [summariseAttempts]
  rw [hreq]
  dsimp only
  rw [if_neg hcne, if_neg (fun hand => hfin hand.1), if_neg hsne, hjson]
  dsimp only
  rw [hres]

/-- Counterexample to C2 as stated: a provider stub whose responses have
`finish_reason = "length"` at every limit of at least 2500 characters and
are the valid JSON object `{"palavras_chave": null}` at limit 1500 — yet
`summarise` does not return a result built from the size-1500 response:
`list(None)` at line 290 of `llm_client.py` raises `TypeError`. -/
theorem c2_excerpt_shrink_cex :
    parseJsonFragment (normalizeJsonPayload c2Json) =
      some (JVal.obj [( "palavras_chave".toList, JVal.null)])
    ∧ (∀ l, 2500 ≤ l →
        c2Req (ReqKind.summary l) = Except.ok ⟨ "x".toList, 11, 7, some lengthLit⟩)
    ∧ c2Req (ReqKind.summary 1500) = Except.ok ⟨c2Json, 13, 9, some ( "stop".toList)⟩
    ∧ summariseModel true ( "m".toList) ( "t".toList) ( "hello world".toList)
        ( "c".toList) 50 ( "original".toList) c2Req = Except.error PyErr.typeErr := by
  refine ⟨rfl, ?_, rfl, rfl⟩
  intro l hl
  simp [c2Req, hl]

/-- C2 as amended: with a non-empty transcript, an original-language
translate mode, an active provider whose responses have
`finish_reason = "length"` at the limits 8000/6000/4000/2500 and are a
valid JSON object at 1500 whose `palavras_chave` value (when present) is
list-coercible, the engine makes exactly the completion requests for the
descending excerpt limits `[8000, 6000, 4000, 2500, 1500]` — none for
900 or 600 — and returns the result built from the size-1500
response. -/
theorem c2_excerpt_shrink (modelName title transcript channel : List Char)
    (maxP : Nat) (tm : List Char) (req : ReqKind → Except Unit LLMReply)
    (r8 r6 r4 r25 r15 : LLMReply) (fields : List (List Char × JVal))
    (items : List JVal)
    (htr : trimBoth transcript ≠ []) (hmode : lowStr tm ∉ ptModes)
    (h8 : req (ReqKind.summary 8000) = Except.ok r8)
    (hf8 : r8.finishReason = some lengthLit)
    (h6 : req (ReqKind.summary 6000) = Except.ok r6)
    (hf6 : r6.finishReason = some lengthLit)
    (h4 : req (ReqKind.summary 4000) = Except.ok r4)
    (hf4 : r4.finishReason = some lengthLit)
    (h25 : req (ReqKind.summary 2500) = Except.ok r25)
    (hf25 : r25.finishReason = some lengthLit)
    (h15 : req (ReqKind.summary 1500) = Except.ok r15)
    (hf15 : r15.finishReason ≠ some lengthLit)
    (hjson : parseJsonFragment (normalizeJsonPayload r15.content) =
      some (JVal.obj fields))
    (hkw : pyToList
      (match jLookup fields keyPalavras with
        | some v => v
        | none => JVal.arr []) = Except.ok items) :
    ∃ result : LLMResult,
      resultFromFields modelName ((normalizeJsonPayload r15.content).length + 1)
        fields r15.promptTokens r15.completionTokens = Except.ok result
      ∧ summariseModel true modelName title transcript channel maxP tm req =
          Except.ok (result,
            [ReqKind.summary 8000, ReqKind.summary 6000, ReqKind.summary 4000,
             ReqKind.summary 2500, ReqKind.summary 1500])
      ∧ result.prompt_tokens = r15.promptTokens
      ∧ result.completion_tokens = r15.completionTokens := by
  obtain ⟨result, hres⟩ : ∃ result,
      resultFromFields modelName ((normalizeJsonPayload r15.content).length + 1)
        fields r15.promptTokens r15.completionTokens = Except.ok result := by
    unfold resultFromFields
    dsimp only
    rw [hkw]
    exact ⟨_, rfl⟩
  have hresPT : result.prompt_tokens = r15.promptTokens ∧
      result.completion_tokens = r15.completionTokens := by
    unfold resultFromFields at hres
    dsimp only at hres
    rw [hkw] at hres
    dsimp only at hres
    injection hres with h'
    rw [← h']
    exact ⟨rfl, rfl⟩
  have hloop : summariseAttempts modelName req excerptLimits [] =
      Except.ok (some result,
        [ReqKind.summary 8000, ReqKind.summary 6000, ReqKind.summary 4000,
         ReqKind.summary 2500, ReqKind.summary 1500]) := by
    show summariseAttempts modelName req
      (8000 :: 6000 :: 4000 :: 2500 :: 1500 :: 900 :: 600 :: []) [] = _
    rw [summariseAttempts_step_continue h8 hf8 (by simp)]
    rw [summariseAttempts_step_continue h6 hf6 (by simp)]
    rw [summariseAttempts_step_continue h4 hf4 (by simp)]
    rw [summariseAttempts_step_continue h25 hf25 (by simp)]
    rw [summariseAttempts_step_found h15 hf15 hjson hres]
    simp
  refine ⟨result, hres, ?_, hresPT.1, hresPT.2⟩
  unfold summariseModel
  dsimp only
  rw [if_neg htr, hloop]
  dsimp only
  rw [if_neg hmode]
  simp

/-- Witness for the amended C2 with the concrete stub `c2ReqOk`. -/
theorem c2_excerpt_shrink_witness :
    ∃ result : LLMResult,
      resultFromFields ( "m".toList) ((normalizeJsonPayload c2JsonOk).length + 1)
        [( "resumo_do_video".toList, JVal.str ( "ok".toList))] 13 9 = Except.ok result
      ∧ summariseModel true ( "m".toList) ( "t".toList) ( "hello world".toList)
          ( "c".toList) 50 ( "original".toList) c2ReqOk =
          Except.ok (result,
            [ReqKind.summary 8000, ReqKind.summary 6000, ReqKind.summary 4000,
             ReqKind.summary 2500, ReqKind.summary 1500])
      ∧ result.prompt_tokens = 13 ∧ result.completion_tokens = 9 :=
  c2_excerpt_shrink ( "m".toList) ( "t".toList) ( "hello world".toList) ( "c".toList)
    50 ( "original".toList) c2ReqOk
    ⟨ "x".toList, 11, 7, some lengthLit⟩ ⟨ "x".toList, 11, 7, some lengthLit⟩
    ⟨ "x".toList, 11, 7, some lengthLit⟩ ⟨ "x".toList, 11, 7, some lengthLit⟩
    ⟨c2JsonOk, 13, 9, some ( "stop".toList)⟩
    [( "resumo_do_video".toList, JVal.str ( "ok".toList))] []
    (by decide) (by decide) rfl rfl rfl rfl rfl rfl rfl rfl rfl (by decide) rfl rfl

/-- Counterexample to C7 as stated: at `maxWords = 0` the code's
heuristic keeps one word (`max(1, ...)` at line 620) while the claim's
reference definition keeps none. -/
theorem c7_heuristic_cex :
    (heuristicSummary ( "m".toList) ( "t".toList) ( "hello world".toList) 0).resumo =
      "hello".toList
    ∧ (refHeuristicSpec ( "hello world".toList) 0).resumo = [] := by
  exact ⟨by decide, by decide⟩

/-- C7 as amended: the heuristic summary equals the reference definition
corrected for what the code actually guards — at least one word is kept
(`max(1, min(wordCount, maxWords))`), the bracket filter is skipped when
it would empty the word list, and the one-line summary is capped at 280
characters — and two calls with identical input produce identical
output. -/
theorem c7_heuristic_matches_reference :
    ∀ (modelName title transcript : List Char) (maxP : Nat),
      (heuristicSummary modelName title transcript maxP).resumo =
        (refHeuristicAmended transcript maxP).resumo
      ∧ (heuristicSummary modelName title transcript maxP).resumo_uma_frase =
        (refHeuristicAmended transcript maxP).umaFrase
      ∧ (heuristicSummary modelName title transcript maxP).palavras_chave =
        (refHeuristicAmended transcript maxP).keywords.map JVal.str
      ∧ (heuristicSummary modelName title transcript maxP).resumo_em_topicos =
        (refHeuristicAmended transcript maxP).topicos
      ∧ heuristicSummary modelName title transcript maxP =
        heuristicSummary modelName title transcript maxP := by
  intro modelName title transcript maxP
  exact ⟨rfl, rfl, rfl, rfl, rfl⟩

/-- C3: when the caption-track listing step fails with an error
classified as access-blocked, the resolver calls the legacy (yt-dlp)
caption fallback exactly once and never attempts a per-language native
track fetch or a cross-language translation for that video. -/
theorem c3_blocked_short_circuit :
    ∀ (o : TranscriptOracle) (preferred : List (List Char)),
      o.listing = ListingRes.blocked →
      fetchTranscriptText o preferred = (o.ytdlpText, [TEvent.ytdlp])
      ∧ (fetchTranscriptText o preferred).2.count TEvent.ytdlp = 1
      ∧ ∀ ev ∈ (fetchTranscriptText o preferred).2, ∀ i : Nat,
          ev ≠ TEvent.fetchNative i ∧ ev ≠ TEvent.translatePt i ∧
          ev ≠ TEvent.fetchTranslated i := by
  intro o preferred h
  have heq : fetchTranscriptText o preferred = (o.ytdlpText, [TEvent.ytdlp]) := by
    unfold fetchTranscriptText
    rw [h]
  refine ⟨heq, ?_, ?_⟩
  · rw [heq]
    rfl
  · rw [heq]
    intro ev hev i
    simp only [List.mem_singleton] at hev
    subst hev
    exact ⟨by simp, by simp, by simp⟩

/-- Witness for C3 with the concrete blocked oracle. -/
theorem c3_blocked_short_circuit_witness :
    fetchTranscriptText wOracleBlocked defaultPreferredLangs =
      (wOracleBlocked.ytdlpText, [TEvent.ytdlp]) :=
  (c3_blocked_short_circuit wOracleBlocked defaultPreferredLangs rfl).1

/-- C4: a video whose only caption track is an auto-generated English one,
under preferred languages `["pt", "en"]`, resolves to that track's fetched
text with a single native fetch — no translation and no legacy fallback —
and the service tags the outcome as the YouTube-transcript source. -/
theorem c4_generated_english_track :
    ∀ (o : TranscriptOracle) (t : List Char),
      o.listing = ListingRes.ok [ { language_code := "en".toList, is_generated := true } ] →
      o.fetchNative 0 = FetchRes.text t → trimBoth t ≠ [] →
      fetchTranscriptText o [ "pt".toList, "en".toList] = (t, [TEvent.fetchNative 0])
      ∧ ∀ (asrEnabled : Bool) (asrProvider : List Char) (audioOk : Bool)
          (asrOut : List Char),
          obterTranscricao asrEnabled asrProvider t audioOk asrOut = (t, tagYoutube) := by
  intro o t hlist hfetch htrim
  have htne : t ≠ [] := by
    intro hc
    rw [hc] at htrim
    exact htrim rfl
  constructor
  · have hstep : attemptIdx o (some 0) = (some t, [TEvent.fetchNative 0]) := by
      unfold attemptIdx tryFetchWith
      dsimp only
      rw [hfetch]
      dsimp only
      rw [if_neg htrim]
      dsimp only
      rw [if_pos htne]
    have hnone : ∀ o' : TranscriptOracle, attemptIdx o' none = (none, []) :=
      fun _ => rfl
    have hm1 : findManualIdx [ { language_code := "en".toList, is_generated := true } ]
        ( "pt".toList) = none := by decide
    have hg1 : findGeneratedIdx [ { language_code := "en".toList, is_generated := true } ]
        ( "pt".toList) = none := by decide
    have hm2 : findManualIdx [ { language_code := "en".toList, is_generated := true } ]
        ( "en".toList) = none := by decide
    have hg2 : findGeneratedIdx [ { language_code := "en".toList, is_generated := true } ]
        ( "en".toList) = some 0 := by decide
    have hlang : langLoop o [ { language_code := "en".toList, is_generated := true } ]
        ([ "pt".toList, "en".toList] ++ [ "pt-BR".toList, "pt-PT".toList, "en".toList]) =
        (some t, [TEvent.fetchNative 0]) := by
      simp only [List.cons_append, List.nil_append, langLoop, hm1, hg1, hm2, hg2,
        hnone, hstep, List.nil_append]
    unfold fetchTranscriptText
    rw [hlist]
    dsimp only
    rw [hlang]
  · intro asrEnabled asrProvider audioOk asrOut
    unfold obterTranscricao
    rw [if_pos htne]

/-- Witness for C4 with the concrete single-track oracle. -/
theorem c4_generated_english_track_witness :
    fetchTranscriptText wOracleEn [ "pt".toList, "en".toList] =
      ( "auto generated english text".toList, [TEvent.fetchNative 0])
    ∧ obterTranscricao false ( "openai".toList)
        ( "auto generated english text".toList) false [] =
      ( "auto generated english text".toList, tagYoutube) := by
  have h := c4_generated_english_track wOracleEn
    ( "auto generated english text".toList) rfl rfl (by decide)
  exact ⟨h.1, h.2 false ( "openai".toList) false []⟩

theorem summariseGuard_ok {c : Prop} [Decidable c] (e : Except PyErr LLMResult)
    (he : ∃ res, e = Except.ok res) :
    ∃ s, (if c then Except.map some e else Except.ok none) = Except.ok s := by
  by_cases hc : c
  · obtain ⟨res, hres⟩ := he
    exact ⟨some res, by rw [if_pos hc, hres]; rfl⟩
  · exact ⟨none, by rw [if_neg hc]⟩

theorem processVideo_ok (cfg : RunConfig) (o : RunOracle) (cn : List Char)
    (hok : ∀ (t tr chn : List Char) (mp : Nat) (tm : List Char),
      ∃ res, o.summarise t tr chn mp tm = Except.ok res)
    (v : VideoOut) : ∃ p, processVideo cfg o cn v = Except.ok p := by
  unfold processVideo
  by_cases hid : v.id = []
  · rw [if_pos hid]
    exact ⟨none, rfl⟩
  · rw [if_neg hid]
    dsimp only
    obtain ⟨s, hs⟩ := summariseGuard_ok
      (c := (decide (lowStr cfg.mode = "full".toList) && !cfg.noLlm &&
        decide ((if lowStr cfg.mode = "full".toList then
            obterTranscricao cfg.asrEnabled cfg.asrProvider (o.transcript v.id)
              (o.audioOk v.id) (o.asrOut v.id)
          else ([], "modo_simples".toList)).1 ≠ [])) = true)
      (o.summarise v.title
        (if lowStr cfg.mode = "full".toList then
            obterTranscricao cfg.asrEnabled cfg.asrProvider (o.transcript v.id)
              (o.audioOk v.id) (o.asrOut v.id)
          else ([], "modo_simples".toList)).1
        cn cfg.resumoMaxPalavras cfg.translateResults)
      (hok _ _ _ _ _)
    rw [hs]
    exact ⟨_, rfl⟩

theorem processVideos_ok (cfg : RunConfig) (o : RunOracle) (cn : List Char)
    (hok : ∀ (t tr chn : List Char) (mp : Nat) (tm : List Char),
      ∃ res, o.summarise t tr chn mp tm = Except.ok res) :
    ∀ vs : List VideoOut, ∃ ps, processVideos cfg o cn vs = Except.ok ps := by
  intro vs
  induction vs with
  | nil => exact ⟨[], rfl⟩
  | cons v rest ih =>
    obtain ⟨p, hp⟩ := processVideo_ok cfg o cn hok v
    obtain ⟨ps, hps⟩ := ih
    cases p with
    | none =>
      refine ⟨ps, ?_⟩
      conv_lhs => rw [processVideos]
      rw [hp]
      exact hps
    | some q =>
      refine ⟨q :: ps, ?_⟩
      conv_lhs => rw [processVideos]
      rw [hp, hps]

theorem processChannel_ok (cfg : RunConfig) (o : RunOracle)
    (hok : ∀ (t tr chn : List Char) (mp : Nat) (tm : List Char),
      ∃ res, o.summarise t tr chn mp tm = Except.ok res)
    (ch : List Char) : ∃ st, processChannel cfg o ch = Except.ok st := by
  unfold processChannel
  by_cases hst : (o.info ch).status ≠ "success".toList
  · rw [if_pos hst]
    exact ⟨_, rfl⟩
  · rw [if_neg hst]
    dsimp only
    obtain ⟨ps, hps⟩ := processVideos_ok cfg o
      (if (o.info ch).name = [] then ch else (o.info ch).name) hok (o.videos ch)
    rw [hps]
    exact ⟨_, rfl⟩

theorem runSteps_forall2 (cfg : RunConfig) (o : RunOracle)
    (hch : ∀ ch : List Char, ∃ st, processChannel cfg o ch = Except.ok st) :
    ∀ cs : List (List Char), ∃ st, runSteps cfg o cs = Except.ok st
      ∧ List.Forall₂ (fun (ch : List Char) (e : ChannelEntry) =>
          ∃ tds chTok nV pT cT,
            processChannel cfg o ch = Except.ok (e, tds, chTok, nV, pT, cT))
        cs st.1 := by
  intro cs
  induction cs with
  | nil => exact ⟨([], [], [], 0, 0, 0), rfl, List.Forall₂.nil⟩
  | cons ch rest ih =>
    obtain ⟨st, hst, hall⟩ := ih
    obtain ⟨stc, hstc⟩ := hch ch
    obtain ⟨entry, tds, chTok, nV, pT, cT⟩ := stc
    cases chTok with
    | some t =>
      refine ⟨(entry :: st.1, tds ++ st.2.1, t :: st.2.2.1,
        nV + st.2.2.2.1, pT + st.2.2.2.2.1, cT + st.2.2.2.2.2), ?_, ?_⟩
      · conv_lhs => rw [runSteps]
        rw [hstc, hst]
      · exact List.Forall₂.cons ⟨tds, some t, nV, pT, cT, hstc⟩ hall
    | none =>
      refine ⟨(entry :: st.1, tds ++ st.2.1, st.2.2.1,
        nV + st.2.2.2.1, pT + st.2.2.2.2.1, cT + st.2.2.2.2.2), ?_, ?_⟩
      · conv_lhs => rw [runSteps]
        rw [hstc, hst]
      · exact List.Forall₂.cons ⟨tds, none, nV, pT, cT, hstc⟩ hall

theorem runSteps_ok_length (cfg : RunConfig) (o : RunOracle) :
    ∀ (channels : List (List Char))
      (st : List ChannelEntry × List TokenDetail × List ChannelTok ×
        Nat × Nat × Nat),
      runSteps cfg o channels = Except.ok st →
      st.1.length = channels.length := by
  intro channels
  induction channels with
  | nil =>
    intro st h
    injection h with h'
    rw [← h']
    rfl
  | cons ch rest ih =>
    intro st h
    rw [runSteps] at h
    cases hpc : processChannel cfg o ch with
    | error e =>
      rw [hpc] at h
      exact absurd h (by simp)
    | ok stc =>
      rw [hpc] at h
      dsimp only at h
      cases hrs : runSteps cfg o rest with
      | error e =>
        rw [hrs] at h
        exact absurd h (by simp)
      | ok st' =>
        rw [hrs] at h
        dsimp only at h
        injection h with h'
        rw [← h']
        simp only [List.length_cons]
        rw [ih st' hrs]

/-- Counterexample to claim C5 as stated: with one resolved channel whose
info fetch succeeds, a `summarise` collaborator equal to the modelled
`LLMClient.summarise` run against claim C2's provider stub raises
`TypeError` (`llm_client.py` line 290); the `try` of service lines
122-277 has a `finally` but no `except`, so the run aborts with that
exception — an error for a reason other than the zero-channel
configuration error. -/
theorem c5_orchestrator_resilience_cex :
    [ "okchan".toList] ≠ ([] : List (List Char))
    ∧ (wRunOracleRaise.info ( "okchan".toList)).status = "success".toList
    ∧ runModel wRunCfg [ "okchan".toList] wRunOracleRaise =
        Except.error (RunErr.uncaught PyErr.typeErr) :=
  ⟨by decide, rfl, rfl⟩

/-- C5 as amended: a run with zero resolved channels fails with the
configuration error before any collaborator is consulted (the same error
for every oracle); with at least one channel, and a `summarise`
collaborator none of whose calls raises, the run completes — whatever
values the collaborators return — with exactly one payload entry per
resolved channel, each the entry its own `processChannel` step produced;
and a channel whose info fetch is not successful is recorded as a
failure entry that contributes no token row and no counts.  (As
originally stated — an error only for zero resolved channels — the
claim is refuted by `c5_orchestrator_resilience_cex`: an exception from
the unprotected `summarise` call aborts the run, since the service's
`try` has a `finally` but no `except`.) -/
theorem c5_orchestrator_resilience :
    (∀ (cfg : RunConfig) (o : RunOracle),
      runModel cfg [] o = Except.error
        (RunErr.valueError ( "Nenhum canal informado ou cadastrado.".toList)))
    ∧ (∀ (cfg : RunConfig) (channels : List (List Char)) (o : RunOracle),
        channels ≠ [] →
        (∀ (t tr chn : List Char) (mp : Nat) (tm : List Char),
          ∃ res, o.summarise t tr chn mp tm = Except.ok res) →
        ∃ r : RunResult, runModel cfg channels o = Except.ok r
          ∧ List.Forall₂ (fun (ch : List Char) (e : ChannelEntry) =>
              ∃ tds chTok nV pT cT,
                processChannel cfg o ch = Except.ok (e, tds, chTok, nV, pT, cT))
              channels r.channelsData)
    ∧ (∀ (cfg : RunConfig) (o : RunOracle) (ch : List Char),
        (o.info ch).status ≠ "success".toList →
        processChannel cfg o ch = Except.ok
          (ChannelEntry.failure ch (o.info ch).message, [], none, 0, 0, 0)) := by
  refine ⟨?_, ?_, ?_⟩
  · intro cfg o
    rfl
  · intro cfg channels o hne hok
    obtain ⟨st, hst, hall⟩ :=
      runSteps_forall2 cfg o (processChannel_ok cfg o hok) channels
    refine ⟨{
      totalVideos := st.2.2.2.1
      totalChannels := st.1.length
      message := (if st.1.isEmpty then "Nenhum resultado gerado".toList
        else "Extração concluída com sucesso".toList)
      tokenDetails := st.2.1
      channelTokens := st.2.2.1
      totalPromptTokens := st.2.2.2.2.1
      totalCompletionTokens := st.2.2.2.2.2
      channelsData := st.1
      successChannels := st.1.countP (fun e => e.status = "success".toList)
      failedChannels := st.1.length -
        st.1.countP (fun e => e.status = "success".toList) }, ?_, ?_⟩
    · unfold runModel
      rw [if_neg hne, hst]
    · exact hall
  · intro cfg o ch hst
    unfold processChannel
    dsimp only
    rw [if_pos hst]

/-- Witness for C5: the empty-channel error, a two-channel run with a
never-raising summarise collaborator in which one channel's info fetch
fails, and the failure entry of the failing channel. -/
theorem c5_orchestrator_resilience_witness :
    runModel wRunCfg [] wRunOracle = Except.error
      (RunErr.valueError ( "Nenhum canal informado ou cadastrado.".toList))
    ∧ (∃ r : RunResult,
        runModel wRunCfg [ "okchan".toList, "badchan".toList] wRunOracle =
          Except.ok r
        ∧ List.Forall₂ (fun (ch : List Char) (e : ChannelEntry) =>
            ∃ tds chTok nV pT cT,
              processChannel wRunCfg wRunOracle ch =
                Except.ok (e, tds, chTok, nV, pT, cT))
          [ "okchan".toList, "badchan".toList] r.channelsData)
    ∧ processChannel wRunCfg wRunOracle ( "badchan".toList) = Except.ok
        (ChannelEntry.failure ( "badchan".toList)
          (wRunOracle.info ( "badchan".toList)).message, [], none, 0, 0, 0) :=
  ⟨c5_orchestrator_resilience.1 wRunCfg wRunOracle,
   c5_orchestrator_resilience.2.1 wRunCfg [ "okchan".toList, "badchan".toList]
     wRunOracle (by decide)
     (fun _ _ _ _ _ => ⟨emptyLLMResult ( "m".toList), rfl⟩),
   c5_orchestrator_resilience.2.2 wRunCfg wRunOracle ( "badchan".toList)
     (by decide)⟩

/-- C10: for every completed run, `success_channels + failed_channels =
total_channels`, the total equals the number of payload entries,
`success_channels` counts exactly the entries with status `"success"`,
and every resolved channel contributes exactly one payload entry. -/
theorem c10_channel_count_invariant :
    ∀ (cfg : RunConfig) (channels : List (List Char)) (o : RunOracle)
      (r : RunResult),
      runModel cfg channels o = Except.ok r →
      r.successChannels + r.failedChannels = r.totalChannels
      ∧ r.totalChannels = r.channelsData.length
      ∧ r.successChannels =
          r.channelsData.countP (fun e => e.status = "success".toList)
      ∧ r.channelsData.length = channels.length := by
  intro cfg channels o r h
  unfold runModel at h
  by_cases hne : channels = []
  · rw [if_pos hne] at h
    exact absurd h (by simp)
  · rw [if_neg hne] at h
    cases hrs : runSteps cfg o channels with
    | error e =>
      rw [hrs] at h
      exact absurd h (by simp)
    | ok st =>
      rw [hrs] at h
      dsimp only at h
      injection h with h'
      subst h'
      refine ⟨?_, rfl, rfl, ?_⟩
      · have hle := List.countP_le_length
          (p := fun e => decide (ChannelEntry.status e = "success".toList))
          (l := st.1)
        dsimp only
        omega
      · exact runSteps_ok_length cfg o channels st hrs

/-- Witness for C10 on the concrete two-channel run. -/
theorem c10_channel_count_invariant_witness :
    ∃ r : RunResult,
      runModel wRunCfg [ "okchan".toList, "badchan".toList] wRunOracle =
        Except.ok r
      ∧ r.successChannels + r.failedChannels = r.totalChannels
      ∧ r.totalChannels = r.channelsData.length
      ∧ r.channelsData.length = 2 := by
  obtain ⟨r, hr⟩ : ∃ r, runModel wRunCfg [ "okchan".toList, "badchan".toList]
      wRunOracle = Except.ok r := by
    unfold runModel
    dsimp only
    exact ⟨_, rfl⟩
  have h := c10_channel_count_invariant wRunCfg
    [ "okchan".toList, "badchan".toList] wRunOracle r hr
  exact ⟨r, hr, h.1, h.2.1, h.2.2.2⟩

end InfoAI
